import Mathlib

/-!
# DWARFLinker: a shallow embedding of `llvm/DWARFLinker/DWARFLinker.h`

The first part embeds the configuration surface and the small inline members of
`class DWARFLinker` (option setters, diagnostics routing, `LinkContext`).
External classes that the header only refers to (`DWARFContext`, `DWARFDie`,
`CompileUnit`, the state behind `AddressesMap`) are type parameters.

Machine integers (`uint16_t`, `unsigned`) are natural numbers; none of the
embedded members performs arithmetic on them.
-/

namespace llvm

/-! ## Data model -/

/-- `enum class DwarfLinkerClient`. -/
inductive DwarfLinkerClient where
  | Dsymutil
  | LLD
  | General
  deriving DecidableEq, Repr

/-- The pure virtual interface `class AddressesMap`, restricted to the two
members without further external argument types. `A` is the state of the
implementing object. -/
class AddressesMap (A : Type) where
  /-- Checks that there are valid relocations against a .debug_info section. -/
  hasValidRelocs : A → Bool
  /-- Erases all data. -/
  clear : A → A

/-- `class DWARFFile`: the object file name, its DWARF context, its address map
and the warnings recorded for it. The two `std::unique_ptr` members may be null
(the constructor stores whatever it is given): `none` is the null pointer,
`some` holds the pointee. -/
structure DWARFFile (Ctx A : Type) where
  FileName : String
  Dwarf : Option Ctx
  Addresses : Option A
  Warnings : List String

/-- `typedef std::map<std::string, std::string> swiftInterfacesMap`. -/
abbrev swiftInterfacesMap := List (String × String)

/-- `typedef std::map<std::string, std::string> objectPrefixMap`. -/
abbrev objectPrefixMap := List (String × String)

/-- `DWARFLinker::messageHandler`: a callback receiving the message, the
context (file name) and an optional DIE. Its effect is a transformation of the
client state `σ`. A null `std::function` is `none` at the use sites. -/
abbrev messageHandler (σ Die : Type) := String → String → Option Die → σ → σ

/-- `DWARFLinker::inputVerificationHandler`. -/
abbrev inputVerificationHandler (σ Ctx A : Type) := DWARFFile Ctx A → σ → σ

/-- `enum class DWARFLinker::AccelTableKind : uint8_t`. -/
inductive AccelTableKind where
  | Apple
  | Pub
  | DebugNames
  deriving DecidableEq, Repr, Fintype

/-- `std::errc`, restricted to the code used by the header. -/
inductive errc where
  | invalid_argument
  deriving DecidableEq, Repr

/-- `llvm::Error`: success, or a string error with an error code. -/
inductive Error where
  | success
  | stringError (EC : errc) (Msg : String)
  deriving DecidableEq, Repr

/-- The test `if (Err)`: true when the value holds an error. -/
def Error.isError : Error → Bool
  | Error.success => false
  | Error.stringError _ _ => true

/-- `createStringError(EC, "unsupported DWARF version: %d", V)`. -/
def createStringError (EC : errc) (Fmt : String) (V : Nat) : Error :=
  Error.stringError EC (Fmt ++ toString V)

/-- `struct DWARFLinker::DWARFLinkerOptions`, with the in-class initialisers
as field defaults. -/
structure DWARFLinkerOptions (σ Ctx A : Type) where
  /-- DWARF version for the output. -/
  TargetDWARFVersion : Nat := 0
  /-- Generate processing log to the standard output. -/
  Verbose : Bool := false
  /-- Print statistics. -/
  Statistics : Bool := false
  /-- Verify the input DWARF. -/
  VerifyInputDWARF : Bool := false
  /-- Do not unique types according to ODR. -/
  NoODR : Bool := false
  /-- Update index tables only. -/
  Update : Bool := false
  /-- Whether a static variable forces us to keep its enclosing function. -/
  KeepFunctionForStatic : Bool := false
  /-- Number of threads. -/
  Threads : Nat := 1
  /-- The accelerator table kinds. -/
  AccelTables : List AccelTableKind := []
  /-- Prepend path for the clang modules. -/
  PrependPath : String := ""
  /-- Input verification handler. -/
  InputVerificationHandler : Option (inputVerificationHandler σ Ctx A) := none
  /-- Swift interface files, module name to path. -/
  ParseableSwiftInterfaces : Option swiftInterfacesMap := none
  /-- A list of remappings to apply to file paths. -/
  ObjectPrefixMap : Option objectPrefixMap := none

/-- The data members of `class DWARFLinker` that the inline members touch. -/
structure DWARFLinker (σ Die Ctx A : Type) where
  DwarfLinkerClientID : DwarfLinkerClient
  StringsTranslator : Option (String → String)
  /-- A unique ID that identifies each compile unit. -/
  UniqueUnitID : Nat
  /-- Offset of the last CIE that has been emitted. -/
  LastCIEOffset : Nat
  ErrorHandler : Option (messageHandler σ Die)
  WarningHandler : Option (messageHandler σ Die)
  Options : DWARFLinkerOptions σ Ctx A

/-- `struct DWARFLinker::RefModuleUnit`. -/
structure RefModuleUnit (Ctx A CU : Type) where
  File : DWARFFile Ctx A
  Unit : CU

/-- `struct DWARFLinker::LinkContext`: data associated with one object during
linking. `File` is a reference in the source; the context carries the state of
the referenced file. -/
structure LinkContext (Ctx A CU : Type) where
  File : DWARFFile Ctx A
  CompileUnits : List CU
  ModuleUnits : List (RefModuleUnit Ctx A CU)
  Skip : Bool

section Members

variable {σ Die Ctx A CU : Type}

/-- The constructor `LinkContext(DWARFFile &File)`. -/
def LinkContext.mk_ctor (File : DWARFFile Ctx A) : LinkContext Ctx A CU :=
  { File := File, CompileUnits := [], ModuleUnits := [], Skip := false }

/-- `LinkContext::clear()`: clear the part of the context that is no longer
needed when we are done with the debug object. `File.Addresses->clear()`
dereferences the pointer without a test: on a null `Addresses` the call has no
defined result (`none`); otherwise the result is the context after the call. -/
def LinkContext.clear [AddressesMap A] (C : LinkContext Ctx A CU) :
    Option (LinkContext Ctx A CU) :=
  match C.File.Addresses with
  | none => none
  | some Map =>
    some { C with
      CompileUnits := []
      File := { C.File with Addresses := some (AddressesMap.clear Map) } }

namespace DWARFLinker

/-- The constructor `DWARFLinker(ErrorHandler, WarningHandler, StringsTranslator)`. -/
def ctor (ErrorHandler WarningHandler : Option (messageHandler σ Die))
    (StringsTranslator : Option (String → String)) : DWARFLinker σ Die Ctx A :=
  { DwarfLinkerClientID := DwarfLinkerClient.Dsymutil
    StringsTranslator := StringsTranslator
    UniqueUnitID := 0
    LastCIEOffset := 0
    ErrorHandler := ErrorHandler
    WarningHandler := WarningHandler
    Options := {} }

/-- The factory `createLinker`; the translator argument defaults to `nullptr`
in the source and is passed explicitly here. -/
def createLinker (ErrorHandler WarningHandler : Option (messageHandler σ Die))
    (StringsTranslator : Option (String → String)) : DWARFLinker σ Die Ctx A :=
  ctor ErrorHandler WarningHandler StringsTranslator

/-- `setTargetDWARFVersion`: returns the error value together with the linker
state after the call. -/
def setTargetDWARFVersion (L : DWARFLinker σ Die Ctx A) (TargetDWARFVersion : Nat) :
    Error × DWARFLinker σ Die Ctx A :=
  if TargetDWARFVersion < 1 ∨ TargetDWARFVersion > 5 then
    (createStringError errc.invalid_argument "unsupported DWARF version: " TargetDWARFVersion, L)
  else
    (Error.success, { L with Options := { L.Options with TargetDWARFVersion := TargetDWARFVersion } })

/-- `addAccelTableKind`, with assertions enabled: `none` when the assertion
`!is_contained(Options.AccelTables, Kind)` fails, otherwise the state with the
kind appended (`emplace_back`). -/
def addAccelTableKind (L : DWARFLinker σ Die Ctx A) (Kind : AccelTableKind) :
    Option (DWARFLinker σ Die Ctx A) :=
  if Kind ∈ L.Options.AccelTables then none
  else some { L with Options := { L.Options with AccelTables := L.Options.AccelTables ++ [Kind] } }

/-- Successive calls of `addAccelTableKind`, stopping at the first failed assertion. -/
def addAccelTableKinds (L : DWARFLinker σ Die Ctx A) :
    List AccelTableKind → Option (DWARFLinker σ Die Ctx A)
  | [] => some L
  | K :: Ks => (addAccelTableKind L K).bind (fun L1 => addAccelTableKinds L1 Ks)

/-- `reportWarning`: the client state after the call. -/
def reportWarning (L : DWARFLinker σ Die Ctx A) (Warning : String) (File : DWARFFile Ctx A)
    (DIE : Option Die) (w : σ) : σ :=
  match L.WarningHandler with
  | some Handler => Handler Warning File.FileName DIE w
  | none => w

/-- `reportError`: the client state after the call. -/
def reportError (L : DWARFLinker σ Die Ctx A) (Warning : String) (File : DWARFFile Ctx A)
    (DIE : Option Die) (w : σ) : σ :=
  match L.ErrorHandler with
  | some Handler => Handler Warning File.FileName DIE w
  | none => w

/-- The call `createLinker(ErrorHandler, WarningHandler)` with the translator
argument omitted: the default argument `StringsTranslator = nullptr` applies. -/
def createLinkerDefault (ErrorHandler WarningHandler : Option (messageHandler σ Die)) :
    DWARFLinker σ Die Ctx A :=
  createLinker ErrorHandler WarningHandler none

/-- `setVerbosity`: allows to generate log of linking process. -/
def setVerbosity (L : DWARFLinker σ Die Ctx A) (Verbose : Bool) : DWARFLinker σ Die Ctx A :=
  { L with Options := { L.Options with Verbose := Verbose } }

/-- `setStatistics`: print statistics to standard output. -/
def setStatistics (L : DWARFLinker σ Die Ctx A) (Statistics : Bool) : DWARFLinker σ Die Ctx A :=
  { L with Options := { L.Options with Statistics := Statistics } }

/-- `setVerifyInputDWARF`: verify the input DWARF. -/
def setVerifyInputDWARF (L : DWARFLinker σ Die Ctx A) (Verify : Bool) : DWARFLinker σ Die Ctx A :=
  { L with Options := { L.Options with VerifyInputDWARF := Verify } }

/-- `setNoODR`: do not unique types according to ODR. -/
def setNoODR (L : DWARFLinker σ Die Ctx A) (NoODR : Bool) : DWARFLinker σ Die Ctx A :=
  { L with Options := { L.Options with NoODR := NoODR } }

/-- `setUpdateIndexTablesOnly`: update index tables only. -/
def setUpdateIndexTablesOnly (L : DWARFLinker σ Die Ctx A) (Update : Bool) :
    DWARFLinker σ Die Ctx A :=
  { L with Options := { L.Options with Update := Update } }

/-- `setAllowNonDeterministicOutput(bool)`: the body is empty (nothing to do). -/
def setAllowNonDeterministicOutput (L : DWARFLinker σ Die Ctx A) (_ : Bool) :
    DWARFLinker σ Die Ctx A :=
  L

/-- `setKeepFunctionForStatic`: whether to keep the enclosing function for a
static variable. -/
def setKeepFunctionForStatic (L : DWARFLinker σ Die Ctx A) (KeepFunctionForStatic : Bool) :
    DWARFLinker σ Die Ctx A :=
  { L with Options := { L.Options with KeepFunctionForStatic := KeepFunctionForStatic } }

/-- `setNumThreads`: use the specified number of threads for parallel files linking. -/
def setNumThreads (L : DWARFLinker σ Die Ctx A) (NumThreads : Nat) : DWARFLinker σ Die Ctx A :=
  { L with Options := { L.Options with Threads := NumThreads } }

/-- `setPrependPath`: set prepend path for clang modules. -/
def setPrependPath (L : DWARFLinker σ Die Ctx A) (Ppath : String) : DWARFLinker σ Die Ctx A :=
  { L with Options := { L.Options with PrependPath := Ppath } }

/-- `setEstimatedObjfilesAmount`: `ObjectContexts.reserve(ObjFilesNum)` changes
the capacity of the vector of object contexts only, which is not among the
embedded members. -/
def setEstimatedObjfilesAmount (L : DWARFLinker σ Die Ctx A) (_ : Nat) : DWARFLinker σ Die Ctx A :=
  L

/-- `setInputVerificationHandler`: set the handler used to report verification errors. -/
def setInputVerificationHandler (L : DWARFLinker σ Die Ctx A)
    (Handler : Option (inputVerificationHandler σ Ctx A)) : DWARFLinker σ Die Ctx A :=
  { L with Options := { L.Options with InputVerificationHandler := Handler } }

/-- `setSwiftInterfacesMap`: set the map for Swift interfaces. -/
def setSwiftInterfacesMap (L : DWARFLinker σ Die Ctx A) (Map : Option swiftInterfacesMap) :
    DWARFLinker σ Die Ctx A :=
  { L with Options := { L.Options with ParseableSwiftInterfaces := Map } }

/-- `setObjectPrefixMap`: set the path remapping for objects. -/
def setObjectPrefixMap (L : DWARFLinker σ Die Ctx A) (Map : Option objectPrefixMap) :
    DWARFLinker σ Die Ctx A :=
  { L with Options := { L.Options with ObjectPrefixMap := Map } }

/-- `needToTranslateStrings()`: `StringsTranslator != nullptr`. -/
def needToTranslateStrings (L : DWARFLinker σ Die Ctx A) : Bool :=
  L.StringsTranslator.isSome

end DWARFLinker

/-- One call of a public option setter of `DWARFLinker`, with its argument. -/
inductive SetterCall (σ Ctx A : Type) where
  | setVerbosity (Verbose : Bool)
  | setStatistics (Statistics : Bool)
  | setVerifyInputDWARF (Verify : Bool)
  | setNoODR (NoODR : Bool)
  | setUpdateIndexTablesOnly (Update : Bool)
  | setAllowNonDeterministicOutput (Allow : Bool)
  | setKeepFunctionForStatic (KeepFunctionForStatic : Bool)
  | setNumThreads (NumThreads : Nat)
  | addAccelTableKind (Kind : AccelTableKind)
  | setPrependPath (Ppath : String)
  | setEstimatedObjfilesAmount (ObjFilesNum : Nat)
  | setInputVerificationHandler (Handler : Option (inputVerificationHandler σ Ctx A))
  | setSwiftInterfacesMap (Map : Option swiftInterfacesMap)
  | setObjectPrefixMap (Map : Option objectPrefixMap)
  | setTargetDWARFVersion (TargetDWARFVersion : Nat)

/-- Perform one setter call: the linker state after it and the `Error` values
it returned (one for `setTargetDWARFVersion`, none for the `void` setters);
`none` when the assertion of `addAccelTableKind` fails. -/
def DWARFLinker.applySetter (L : DWARFLinker σ Die Ctx A) :
    SetterCall σ Ctx A → Option (DWARFLinker σ Die Ctx A × List Error)
  | SetterCall.setVerbosity b => some (L.setVerbosity b, [])
  | SetterCall.setStatistics b => some (L.setStatistics b, [])
  | SetterCall.setVerifyInputDWARF b => some (L.setVerifyInputDWARF b, [])
  | SetterCall.setNoODR b => some (L.setNoODR b, [])
  | SetterCall.setUpdateIndexTablesOnly b => some (L.setUpdateIndexTablesOnly b, [])
  | SetterCall.setAllowNonDeterministicOutput b => some (L.setAllowNonDeterministicOutput b, [])
  | SetterCall.setKeepFunctionForStatic b => some (L.setKeepFunctionForStatic b, [])
  | SetterCall.setNumThreads n => some (L.setNumThreads n, [])
  | SetterCall.addAccelTableKind K => (L.addAccelTableKind K).map (fun L1 => (L1, []))
  | SetterCall.setPrependPath p => some (L.setPrependPath p, [])
  | SetterCall.setEstimatedObjfilesAmount n => some (L.setEstimatedObjfilesAmount n, [])
  | SetterCall.setInputVerificationHandler h => some (L.setInputVerificationHandler h, [])
  | SetterCall.setSwiftInterfacesMap m => some (L.setSwiftInterfacesMap m, [])
  | SetterCall.setObjectPrefixMap m => some (L.setObjectPrefixMap m, [])
  | SetterCall.setTargetDWARFVersion v =>
    some ((L.setTargetDWARFVersion v).2, [(L.setTargetDWARFVersion v).1])

/-- Perform a sequence of setter calls in order: the final linker state and the
`Error` values returned along the way, in order. -/
def DWARFLinker.applySetters (L : DWARFLinker σ Die Ctx A) :
    List (SetterCall σ Ctx A) → Option (DWARFLinker σ Die Ctx A × List Error)
  | [] => some (L, [])
  | Call :: Calls =>
    match DWARFLinker.applySetter L Call with
    | none => none
    | some (L1, Errs1) =>
      match DWARFLinker.applySetters L1 Calls with
      | none => none
      | some (L2, Errs2) => some (L2, Errs1 ++ Errs2)

/-- Which of the two injected callbacks was invoked. -/
inductive HandlerSlot where
  | Error
  | Warning
  deriving DecidableEq, Repr

/-- One recorded invocation of an injected callback. -/
structure HandlerCall (Die : Type) where
  Slot : HandlerSlot
  Message : String
  Context : String
  DIE : Option Die

/-- A client callback that does nothing but record its own invocation at the
end of the call log. -/
def recordingHandler (Slot : HandlerSlot) : messageHandler (List (HandlerCall Die)) Die :=
  fun Message Context DIE Log => Log ++ [{ Slot := Slot, Message := Message, Context := Context, DIE := DIE }]

/-- A fresh linker without callbacks, over trivial external types. -/
def exampleLinker : DWARFLinker Unit Unit Unit Unit :=
  DWARFLinker.createLinker none none none

/-- The state of `exampleLinker` with the given accelerator-table list. -/
def exampleLinkerWith (Ks : List AccelTableKind) : DWARFLinker Unit Unit Unit Unit :=
  { exampleLinker with Options := { AccelTables := Ks } }

end Members

/-! ## Retention analysis, reference resolution and cloning

`TraversalFlags`, `WorklistItemType` and `WorklistItem` are declared in the
header. The members `resolveDIEReference`, `lookForDIEsToKeep`, `cloneDIE` and
`cloneAllCompileUnits` are only declared there; their bodies below follow the
design document (sections 3, 4.1, 4.2 and 4.3).
-/

/-- `TF_Keep`: mark the traversed DIEs as kept. -/
def TF_Keep : Nat := 1 <<< 0

/-- `TF_InFunctionScope`: current scope is a function scope. -/
def TF_InFunctionScope : Nat := 1 <<< 1

/-- `TF_DependencyWalk`: walking the dependencies of a kept DIE. -/
def TF_DependencyWalk : Nat := 1 <<< 2

/-- `TF_ParentWalk`: walking up the parents of a kept DIE. -/
def TF_ParentWalk : Nat := 1 <<< 3

/-- `TF_ODR`: use the ODR while keeping dependents. -/
def TF_ODR : Nat := 1 <<< 4

/-- `TF_SkipPC`: skip all location attributes. -/
def TF_SkipPC : Nat := 1 <<< 5

/-- The test `Flags & F`. -/
def hasFlag (Flags F : Nat) : Bool := (Flags &&& F) != 0

/-- `enum class WorklistItemType`: the distinct types of work performed by the
work loop. -/
inductive WorklistItemType where
  | LookForDIEsToKeep
  | LookForChildDIEsToKeep
  | LookForRefDIEsToKeep
  | LookForParentDIEsToKeep
  | UpdateChildIncompleteness
  | UpdateRefIncompleteness
  | MarkODRCanonicalDie
  deriving DecidableEq, Repr, Fintype

/-- The kinds of work-list item as the design document names them (section 3,
WorklistItem): decide-keep, propagate-to-children, propagate-to-references,
propagate-to-ancestors, update-incompleteness-from-children,
update-incompleteness-from-references, mark-ODR-canonical. -/
inductive SpecWorkKind where
  | decideKeep
  | propagateToChildren
  | propagateToReferences
  | propagateToAncestors
  | updateIncompletenessFromChildren
  | updateIncompletenessFromReferences
  | markODRCanonical
  deriving DecidableEq, Repr, Fintype

/-- The kind of the design document that an enumerator of `WorklistItemType`
stands for, by the enumerator's comment in the header. -/
def WorklistItemType.specKind : WorklistItemType → SpecWorkKind
  | WorklistItemType.LookForDIEsToKeep => SpecWorkKind.decideKeep
  | WorklistItemType.LookForChildDIEsToKeep => SpecWorkKind.propagateToChildren
  | WorklistItemType.LookForRefDIEsToKeep => SpecWorkKind.propagateToReferences
  | WorklistItemType.LookForParentDIEsToKeep => SpecWorkKind.propagateToAncestors
  | WorklistItemType.UpdateChildIncompleteness => SpecWorkKind.updateIncompletenessFromChildren
  | WorklistItemType.UpdateRefIncompleteness => SpecWorkKind.updateIncompletenessFromReferences
  | WorklistItemType.MarkODRCanonicalDie => SpecWorkKind.markODRCanonical

/-- The enumerators of `enum TraversalFlags`, without their `TF_` prefix; the
constants `TF_Keep` to `TF_SkipPC` above are their values. -/
inductive TraversalFlags where
  | Keep
  | InFunctionScope
  | DependencyWalk
  | ParentWalk
  | ODR
  | SkipPC
  deriving DecidableEq, Repr, Fintype

/-- The value of an enumerator of `enum TraversalFlags`. -/
def TraversalFlags.value : TraversalFlags → Nat
  | TraversalFlags.Keep => TF_Keep
  | TraversalFlags.InFunctionScope => TF_InFunctionScope
  | TraversalFlags.DependencyWalk => TF_DependencyWalk
  | TraversalFlags.ParentWalk => TF_ParentWalk
  | TraversalFlags.ODR => TF_ODR
  | TraversalFlags.SkipPC => TF_SkipPC

/-- The enumerators in the order of their declaration. -/
def TraversalFlags.all : List TraversalFlags :=
  [TraversalFlags.Keep, TraversalFlags.InFunctionScope, TraversalFlags.DependencyWalk,
   TraversalFlags.ParentWalk, TraversalFlags.ODR, TraversalFlags.SkipPC]

/-- The `unsigned Flags` mask of a set of flags: the bitwise OR of the values
of its members. -/
def flagsMask (S : Finset TraversalFlags) : Nat :=
  TraversalFlags.all.foldl (fun Mask F => if F ∈ S then Mask ||| F.value else Mask) 0

/-- The anonymous union of `WorklistItem`: an ancestor index or a pointer to
the info record of another DIE. -/
inductive WorklistPayload (InfoRef : Type) where
  | AncestorIdx (Idx : Nat)
  | OtherInfo (Info : Option InfoRef)
  deriving DecidableEq, Repr

/-- `struct WorklistItem`: an item in the work list. `Die` is the type of DIE
handles, `CURef` of compile-unit references, `InfoRef` of info-record pointers. -/
structure WorklistItem (Die CURef InfoRef : Type) where
  Die : Die
  ItemType : WorklistItemType
  CU : CURef
  Flags : Nat
  Payload : WorklistPayload InfoRef
  deriving DecidableEq, Repr

/-- `WorklistItem(DWARFDie Die, CompileUnit &CU, unsigned Flags, WorklistItemType T)`. -/
def WorklistItem.ofDieFlagsType {Die CURef InfoRef : Type} (D : Die) (CU : CURef) (Flags : Nat)
    (T : WorklistItemType) : WorklistItem Die CURef InfoRef :=
  { Die := D, ItemType := T, CU := CU, Flags := Flags, Payload := WorklistPayload.AncestorIdx 0 }

/-- The same constructor with the default `T = WorklistItemType::LookForDIEsToKeep`. -/
def WorklistItem.ofDieFlags {Die CURef InfoRef : Type} (D : Die) (CU : CURef) (Flags : Nat) :
    WorklistItem Die CURef InfoRef :=
  WorklistItem.ofDieFlagsType D CU Flags WorklistItemType.LookForDIEsToKeep

/-- `WorklistItem(DWARFDie Die, CompileUnit &CU, WorklistItemType T, DIEInfo *OtherInfo)`. -/
def WorklistItem.ofDieTypeInfo {Die CURef InfoRef : Type} (D : Die) (CU : CURef)
    (T : WorklistItemType) (OtherInfo : Option InfoRef) : WorklistItem Die CURef InfoRef :=
  { Die := D, ItemType := T, CU := CU, Flags := 0, Payload := WorklistPayload.OtherInfo OtherInfo }

/-- `WorklistItem(unsigned AncestorIdx, CompileUnit &CU, unsigned Flags)`; the
`Die` member is default-constructed. -/
def WorklistItem.ofAncestor {Die CURef InfoRef : Type} [Inhabited Die] (AncestorIdx : Nat)
    (CU : CURef) (Flags : Nat) : WorklistItem Die CURef InfoRef :=
  { Die := default, ItemType := WorklistItemType.LookForParentDIEsToKeep, CU := CU, Flags := Flags,
    Payload := WorklistPayload.AncestorIdx AncestorIdx }

/-- Modelled from the spec: the tags the liveness test of decide-keep
distinguishes (section 4.1): function and label entries, variables, and all
other entries. The class `DWARFDie` and its tags are not among the sources. -/
inductive EntryTag where
  | function
  | label
  | variable
  | other
  deriving DecidableEq, Repr

/-- Modelled from the spec: one entry of a unit (section 3, Unit), at a fixed
position of the pre-order numbering. `ParentIdx` is the index of the parent
(the root, index 0, is its own parent); `References` are the raw offsets held by
the reference attributes (type, abstract-origin, specification, containing-type,
friend). The parsed entry tree (`DWARFUnit`, `DWARFDebugInfoEntry`) is not among
the sources. -/
structure Entry where
  Offset : Nat
  Tag : EntryTag
  ParentIdx : Nat
  References : List Nat
  HasLocation : Bool
  IsDeclaration : Bool
  ScopePruned : Bool
  ODRClass : Option Nat
  deriving DecidableEq, Repr

/-- Modelled from the spec: the per-entry record (section 3, EntryInfo): Keep,
InFunctionScope, Incomplete, IsODRCanonical and the output offset once cloned.
`CompileUnit::DIEInfo` is not among the sources. -/
structure EntryInfo where
  Keep : Bool := false
  InFunctionScope : Bool := false
  Incomplete : Bool := false
  IsODRCanonical : Bool := false
  OutOffset : Option Nat := none
  deriving DecidableEq, Repr

/-- Modelled from the spec: the original entry tree of one compile unit as a
pre-order array, with the offset range the unit covers (sections 3 and 4.2).
`DWARFUnit` is not among the sources. -/
structure DWARFUnit where
  StartOffset : Nat
  NextUnitOffset : Nat
  Entries : List Entry
  deriving DecidableEq, Repr

/-- Modelled from the spec: a Unit (section 3): the original entry tree, the
parallel array of `EntryInfo` records, the unique numeric ID and the
ODR-participation flag. `CompileUnit` (DWARFLinkerCompileUnit.h) is not among
the sources. -/
structure CompileUnit where
  OrigUnit : DWARFUnit
  Info : List EntryInfo
  ID : Nat
  HasODR : Bool
  deriving DecidableEq, Repr

/-- Modelled from the spec: a handle of an entry inside a unit known from the
context: its index in the pre-order numbering, or `none` for the null DIE.
`DWARFDie` is not among the sources. -/
abbrev DWARFDie := Option Nat

/-- The work-list items of the retention analysis: DIE handles, unit indices
into the unit list, and (unit, entry) indices for info records. -/
abbrev Item := WorklistItem DWARFDie Nat (Nat × Nat)

/-- The original units of a unit list. -/
def origUnits (Units : List CompileUnit) : List DWARFUnit :=
  Units.map CompileUnit.OrigUnit

/-- The entry at index `i` of unit `u`, when both exist. -/
def entryAt (Orig : List DWARFUnit) (u i : Nat) : Option Entry :=
  match Orig[u]? with
  | some U => U.Entries[i]?
  | none => none

/-- `CU.getInfo(Idx)`: the info record of entry `i` of unit `u`, when both exist. -/
def getInfo (Units : List CompileUnit) (u i : Nat) : Option EntryInfo :=
  match Units[u]? with
  | some U => U.Info[i]?
  | none => none

/-- The `Keep` bit of entry `i` of unit `u` (false outside the arrays). -/
def isKept (Units : List CompileUnit) (u i : Nat) : Bool :=
  match getInfo Units u i with
  | some I => I.Keep
  | none => false

/-- Replace the element at position `n` by its image under `f`. -/
def updateAt {α : Type} (f : α → α) : List α → Nat → List α
  | [], _ => []
  | a :: as, 0 => f a :: as
  | a :: as, n + 1 => a :: updateAt f as n

/-- Update the info record of entry `i` of unit `u` in place. -/
def modifyInfo (Units : List CompileUnit) (u i : Nat) (f : EntryInfo → EntryInfo) :
    List CompileUnit :=
  updateAt (fun U => { U with Info := updateAt f U.Info i }) Units u

/-- Modelled from the spec: the children of entry `i` in a unit's pre-order
array (section 3, Unit): the entries other than the root whose parent index is
`i`. -/
def childrenOf (U : DWARFUnit) (i : Nat) : List Nat :=
  (List.range U.Entries.length).filter
    (fun j => match U.Entries[j]? with
      | some E => decide (0 < j) && decide (E.ParentIdx = i)
      | none => false)

/-- Modelled from the spec: the walk upward by index from entry `a` to the unit
root (section 4.1, propagate-to-ancestors): `a`, its parent, and so on, at most
`fuel` entries. -/
def ancestorChain (U : DWARFUnit) : Nat → Nat → List Nat
  | 0, _ => []
  | fuel + 1, a =>
    match U.Entries[a]? with
    | none => []
    | some E => a :: (if a = 0 then [] else ancestorChain U fuel E.ParentIdx)

/-- The upward walk from entry `a` of unit `u`; the number of entries of the
unit bounds its length. -/
def ancestorsAt (Orig : List DWARFUnit) (u a : Nat) : List Nat :=
  match Orig[u]? with
  | some U => ancestorChain U U.Entries.length a
  | none => []

/-- Modelled from the spec: the range search of section 4.2 for the unit that
owns an offset: the index of the first unit whose offset range contains it. The
body of `resolveDIEReference` and its helpers are not among the sources. -/
def getUnitForOffset : List DWARFUnit → Nat → Option Nat
  | [], _ => none
  | U :: Us, Offset =>
    if U.StartOffset ≤ Offset ∧ Offset < U.NextUnitOffset then some 0
    else (getUnitForOffset Us Offset).map (fun u => u + 1)

/-- Modelled from the spec: the exact offset match of section 4.2 for the
entry start: the index of the first entry that starts at the offset. -/
def getDIEForOffset : List Entry → Nat → Option Nat
  | [], _ => none
  | E :: Es, Offset =>
    if E.Offset = Offset then some 0
    else (getDIEForOffset Es Offset).map (fun i => i + 1)

/-- The text of the warning for a reference that does not resolve. -/
def unresolvedReferenceWarning : String := "could not find referenced DIE"

section Analysis

variable {σ Ctx A : Type}

/-- Modelled from the spec: `resolveDIEReference` (section 4.2): a range search
for the owning unit followed by an exact offset match for the entry start;
failure yields a warning and a null result. Returns the resolved DIE, the
referenced unit `RefCU` and the client state. The body of the member is not
among the sources. -/
def DWARFLinker.resolveDIEReference (L : DWARFLinker σ DWARFDie Ctx A) (File : DWARFFile Ctx A)
    (Units : List CompileUnit) (RefValue : Nat) (DIE : DWARFDie) (w : σ) :
    (DWARFDie × Option Nat) × σ :=
  match getUnitForOffset (origUnits Units) RefValue with
  | some u =>
    match (origUnits Units)[u]? with
    | some U =>
      match getDIEForOffset U.Entries RefValue with
      | some i => ((some i, some u), w)
      | none =>
        ((none, some u), DWARFLinker.reportWarning L unresolvedReferenceWarning File (some DIE) w)
    | none =>
      ((none, none), DWARFLinker.reportWarning L unresolvedReferenceWarning File (some DIE) w)
  | none =>
    ((none, none), DWARFLinker.reportWarning L unresolvedReferenceWarning File (some DIE) w)

/-- Modelled from the spec: the state of the retention analysis: the units with
their info arrays, the work list (a stack, top first), the client state reached
through the warning callback, and a log of the entries whose Keep bit was set,
in the order of marking. The body of `lookForDIEsToKeep` is not among the
sources. -/
structure RetentionState (σ : Type) where
  Units : List CompileUnit
  Worklist : List Item
  World : σ
  Marked : List (Nat × Nat)

/-- Modelled from the spec: is the enclosing function of entry `i` kept
(section 4.1, decide-keep, variables): the nearest function entry on the walk
upward from the parent of `i`. -/
def enclosingFunctionKept (Units : List CompileUnit) (u i : Nat) : Bool :=
  match entryAt (origUnits Units) u i with
  | none => false
  | some E =>
    match (ancestorsAt (origUnits Units) u E.ParentIdx).find?
        (fun a => match entryAt (origUnits Units) u a with
          | some P => decide (P.Tag = EntryTag.function)
          | none => false) with
    | some a => isKept Units u a
    | none => false

/-- Modelled from the spec: the tag-specific liveness test of decide-keep
(section 4.1). A function or label entry is kept if the address oracle grants a
relocation adjustment for it and it is not excluded by scope pruning; a variable
is kept if its location resolves a live address, or if it has no location but
the retain-enclosing-function-for-statics policy is enabled and its enclosing
function is kept. `RelocMgr` is the address oracle. The body of `shouldKeepDIE`
is not among the sources. -/
def DWARFLinker.shouldKeepDIE (L : DWARFLinker σ DWARFDie Ctx A) (RelocMgr : Nat → Nat → Option Int)
    (Units : List CompileUnit) (u i : Nat) (E : Entry) : Bool :=
  match E.Tag with
  | EntryTag.function => (RelocMgr u i).isSome && !E.ScopePruned
  | EntryTag.label => (RelocMgr u i).isSome && !E.ScopePruned
  | EntryTag.variable =>
    if E.HasLocation then (RelocMgr u i).isSome
    else L.Options.KeepFunctionForStatic && enclosingFunctionKept Units u i
  | EntryTag.other => false

/-- Modelled from the spec: the flags of the items pushed for references
(section 4.1, propagate-to-references): keep, dependency walk and, unless
uniquing is disabled, ODR walk. -/
def DWARFLinker.dependencyFlags (L : DWARFLinker σ DWARFDie Ctx A) : Nat :=
  TF_Keep ||| TF_DependencyWalk ||| (if L.Options.NoODR then 0 else TF_ODR)

/-- Modelled from the spec: decide-keep (section 4.1) for entry `i` of unit `u`
on the state whose work list is already popped. Re-visiting a kept entry is a
no-op. Otherwise the entry is kept if the flags request it or the liveness test
succeeds; on success Keep is set and propagate-to-children,
propagate-to-ancestors and, unless address attributes are skipped,
propagate-to-references are pushed. -/
def DWARFLinker.decideKeep (L : DWARFLinker σ DWARFDie Ctx A) (RelocMgr : Nat → Nat → Option Int)
    (u i Flags : Nat) (s : RetentionState σ) : RetentionState σ :=
  match entryAt (origUnits s.Units) u i, getInfo s.Units u i with
  | some E, some MyInfo =>
    if MyInfo.Keep then s
    else if hasFlag Flags TF_Keep || DWARFLinker.shouldKeepDIE L RelocMgr s.Units u i E then
      { s with
        Units := modifyInfo s.Units u i
          (fun I => { I with Keep := true, InFunctionScope := hasFlag Flags TF_InFunctionScope })
        Marked := s.Marked ++ [(u, i)]
        Worklist :=
          (if hasFlag Flags TF_SkipPC then []
            else [WorklistItem.ofDieFlagsType (some i) u Flags WorklistItemType.LookForRefDIEsToKeep]) ++
          WorklistItem.ofAncestor E.ParentIdx u
            (TF_ParentWalk ||| DWARFLinker.dependencyFlags L) ::
          WorklistItem.ofDieFlagsType (some i) u Flags WorklistItemType.LookForChildDIEsToKeep ::
          s.Worklist }
    else s
  | _, _ => s

/-- The number of entries whose Keep bit is not set. -/
def unkeptCount (Units : List CompileUnit) : Nat :=
  (Units.map (fun U => (U.Info.map (fun I => if I.Keep then 0 else 1)).sum)).sum

/-- Two unit lists have the same original units, the same Keep bits and info
records at the same places. -/
def SameKeep (Units Units1 : List CompileUnit) : Prop :=
  origUnits Units1 = origUnits Units ∧
  unkeptCount Units1 = unkeptCount Units ∧
  (∀ v j, isKept Units1 v j = isKept Units v j) ∧
  (∀ v j, (getInfo Units1 v j).isSome = (getInfo Units v j).isSome)

/-- Modelled from the spec: an entry of the output tree (section 3, Output
tree): the structural tag copied from the input entry, the offset of the input
entry it was cloned from, and the cloned children. The class `DIE` is not among
the sources. -/
inductive DIE where
  | mk (Tag : EntryTag) (InputOffset : Nat) (Children : List DIE)

/-- Modelled from the spec: one unit of the output: the ID of the input unit
and the root of its rebuilt tree. -/
structure OutputUnit where
  UnitID : Nat
  Root : DIE

/-- Modelled from the spec: `DIECloner::cloneDIE` (section 4.3, and the member's
comment: the root of the cloned tree, or null if nothing was selected): an entry
without Keep yields null; a kept entry yields an output entry with its tag and
the clones of its children that were selected. `fuel` bounds the depth of the
descent. The body of the member is not among the sources. -/
def DIECloner.cloneDIE (U : CompileUnit) : Nat → DWARFDie → Option DIE
  | 0, _ => none
  | _ + 1, none => none
  | fuel + 1, some Idx =>
    match U.OrigUnit.Entries[Idx]?, U.Info[Idx]? with
    | some E, some I =>
      if I.Keep then
        some (DIE.mk E.Tag E.Offset
          ((childrenOf U.OrigUnit Idx).filterMap (fun c => DIECloner.cloneDIE U fuel (some c))))
      else none
    | _, _ => none

/-- Modelled from the spec: the output of one unit (section 4.3): a unit with at
least one kept entry is rebuilt from its root, a unit with zero kept entries is
skipped entirely. -/
def DIECloner.cloneCompileUnit (U : CompileUnit) : List OutputUnit :=
  if U.Info.any (fun I => I.Keep) then
    match DIECloner.cloneDIE U U.OrigUnit.Entries.length (some 0) with
    | some Root => [{ UnitID := U.ID, Root := Root }]
    | none => []
  else []

/-- Modelled from the spec: the output units of a list of units, in the order
of the list (section 4.3). -/
def DIECloner.cloneUnits : List CompileUnit → List OutputUnit
  | [] => []
  | U :: Us => DIECloner.cloneCompileUnit U ++ DIECloner.cloneUnits Us

/-- Modelled from the spec: `DIECloner::cloneAllCompileUnits` (section 4.3, and
the member's comment: if there are no valid relocs, then there is nothing to
clone): the output units of the file. A file without an address map has no
valid relocs. The body of the member is not among the sources. -/
def DIECloner.cloneAllCompileUnits [AddressesMap A] (File : DWARFFile Ctx A)
    (Units : List CompileUnit) : List OutputUnit :=
  match File.Addresses with
  | some Map => if AddressesMap.hasValidRelocs Map then DIECloner.cloneUnits Units else []
  | none => []

end Analysis

/-! ## Example data: two units with a reference cycle across them -/

/-- Unit 0 covers offsets 0 to 99: a root and the function `A` at offset 20,
which references offset 130. -/
def exampleUnitA : CompileUnit :=
  { OrigUnit :=
      { StartOffset := 0, NextUnitOffset := 100
        Entries :=
          [ { Offset := 11, Tag := EntryTag.other, ParentIdx := 0, References := [],
              HasLocation := false, IsDeclaration := false, ScopePruned := false, ODRClass := none },
            { Offset := 20, Tag := EntryTag.function, ParentIdx := 0, References := [130],
              HasLocation := false, IsDeclaration := false, ScopePruned := false, ODRClass := none } ] }
    Info := [{}, {}]
    ID := 1
    HasODR := true }

/-- Unit 1 covers offsets 100 to 199: a root and the type `B` at offset 130,
which references `A` at offset 20 and the dangling offset 999. -/
def exampleUnitB : CompileUnit :=
  { OrigUnit :=
      { StartOffset := 100, NextUnitOffset := 200
        Entries :=
          [ { Offset := 111, Tag := EntryTag.other, ParentIdx := 0, References := [],
              HasLocation := false, IsDeclaration := false, ScopePruned := false, ODRClass := none },
            { Offset := 130, Tag := EntryTag.other, ParentIdx := 0, References := [20, 999],
              HasLocation := false, IsDeclaration := false, ScopePruned := false, ODRClass := some 7 } ] }
    Info := [{}, {}]
    ID := 2
    HasODR := true }

/-- The two example units. -/
def exampleUnits : List CompileUnit := [exampleUnitA, exampleUnitB]

/-- An address map for the examples: the list of offsets with a valid relocation. -/
structure ExampleAddresses where
  ValidRelocs : List Nat
  deriving DecidableEq, Repr

/-- The example address map implements the `AddressesMap` interface. -/
instance : AddressesMap ExampleAddresses where
  hasValidRelocs := fun M => !M.ValidRelocs.isEmpty
  clear := fun _ => { ValidRelocs := [] }

/-- A linker whose two callbacks record their invocations. -/
def recordingLinker : DWARFLinker (List (HandlerCall DWARFDie)) DWARFDie Unit ExampleAddresses :=
  DWARFLinker.createLinker (some (recordingHandler HandlerSlot.Error))
    (some (recordingHandler HandlerSlot.Warning)) none

/-- An input file named `a.o` with one valid relocation. -/
def exampleFile : DWARFFile Unit ExampleAddresses :=
  { FileName := "a.o", Dwarf := some (), Addresses := some { ValidRelocs := [20] }, Warnings := [] }

/-- An input file named `missing.o` constructed with null `Dwarf` and null
`Addresses`. -/
def exampleNullFile : DWARFFile Unit ExampleAddresses :=
  { FileName := "missing.o", Dwarf := none, Addresses := none, Warnings := ["cannot open"] }

/-- The context of `exampleFile` holding the two example units. -/
def exampleContext : LinkContext Unit ExampleAddresses CompileUnit :=
  { File := exampleFile, CompileUnits := exampleUnits, ModuleUnits := [], Skip := false }

/-- The freshly constructed context of `exampleNullFile`. -/
def exampleNullContext : LinkContext Unit ExampleAddresses CompileUnit :=
  LinkContext.mk_ctor exampleNullFile

/-- The context of `exampleNullFile` after it was marked to be skipped. -/
def exampleSkippedNullContext : LinkContext Unit ExampleAddresses CompileUnit :=
  { File := exampleNullFile, CompileUnits := [], ModuleUnits := [], Skip := true }

/-! ## Theorems -/

section Configuration

variable {σ Die Ctx A CU : Type}

/-- C1: for every version value `v` (in particular every 16-bit unsigned one),
`setTargetDWARFVersion` returns an error exactly when `v < 1` or `v > 5`;
1 and 5 are accepted, 0 and 6 are rejected. -/
theorem DWARFLinker.setTargetDWARFVersion_error_iff (L : DWARFLinker σ Die Ctx A) (v : Nat) :
    ((DWARFLinker.setTargetDWARFVersion L v).1.isError = true ↔ (v < 1 ∨ v > 5)) ∧
    (DWARFLinker.setTargetDWARFVersion L 1).1 = Error.success ∧
    (DWARFLinker.setTargetDWARFVersion L 5).1 = Error.success ∧
    (DWARFLinker.setTargetDWARFVersion L 0).1.isError = true ∧
    (DWARFLinker.setTargetDWARFVersion L 6).1.isError = true := by
  refine ⟨?_, rfl, rfl, rfl, rfl⟩
  unfold DWARFLinker.setTargetDWARFVersion
  by_cases h : v < 1 ∨ v > 5
  · rw [if_pos h]
    exact ⟨fun _ => h, fun _ => rfl⟩
  · rw [if_neg h]
    exact ⟨fun hc => (Bool.false_ne_true hc).elim, fun hc => absurd hc h⟩

/-- C2: `setTargetDWARFVersion` is atomic on failure. When it returns success
for `v`, the target version is `v` afterwards and nothing else changed; when it
returns an error the whole linker state, version and every other option
included, is the state before the call. -/
theorem DWARFLinker.setTargetDWARFVersion_atomic (L : DWARFLinker σ Die Ctx A) (v : Nat) :
    ((DWARFLinker.setTargetDWARFVersion L v).1 = Error.success →
      (DWARFLinker.setTargetDWARFVersion L v).2.Options.TargetDWARFVersion = v ∧
      (DWARFLinker.setTargetDWARFVersion L v).2 =
        { L with Options := { L.Options with TargetDWARFVersion := v } }) ∧
    ((DWARFLinker.setTargetDWARFVersion L v).1.isError = true →
      (DWARFLinker.setTargetDWARFVersion L v).2 = L ∧
      (DWARFLinker.setTargetDWARFVersion L v).2.Options = L.Options ∧
      (DWARFLinker.setTargetDWARFVersion L v).2.Options.TargetDWARFVersion =
        L.Options.TargetDWARFVersion) := by
  unfold DWARFLinker.setTargetDWARFVersion
  by_cases h : v < 1 ∨ v > 5
  · rw [if_pos h]
    exact ⟨fun hc => Error.noConfusion hc, fun _ => ⟨rfl, rfl, rfl⟩⟩
  · rw [if_neg h]
    exact ⟨fun _ => ⟨rfl, rfl⟩, fun hc => (Bool.false_ne_true hc).elim⟩

/-- Witness for C2 on a fresh linker: version 6 is rejected and leaves the
state untouched, version 3 is accepted and stored. -/
theorem DWARFLinker.setTargetDWARFVersion_atomic_witness :
    (DWARFLinker.setTargetDWARFVersion
        (DWARFLinker.createLinker none none none : DWARFLinker Unit Unit Unit Unit) 6).2 =
      DWARFLinker.createLinker none none none ∧
    (DWARFLinker.setTargetDWARFVersion
        (DWARFLinker.createLinker none none none : DWARFLinker Unit Unit Unit Unit)
        3).2.Options.TargetDWARFVersion = 3 :=
  ⟨((DWARFLinker.setTargetDWARFVersion_atomic _ 6).2 rfl).1,
   ((DWARFLinker.setTargetDWARFVersion_atomic _ 3).1 rfl).1⟩

/-- The accelerator-table list after one successful `addAccelTableKind`. -/
theorem DWARFLinker.addAccelTableKind_of_not_mem (L : DWARFLinker σ Die Ctx A)
    (K : AccelTableKind) (h : K ∉ L.Options.AccelTables) :
    DWARFLinker.addAccelTableKind L K =
      some { L with Options := { L.Options with AccelTables := L.Options.AccelTables ++ [K] } } := by
  unfold DWARFLinker.addAccelTableKind
  rw [if_neg h]

/-- The assertion of `addAccelTableKind` fails when the kind is contained. -/
theorem DWARFLinker.addAccelTableKind_of_mem (L : DWARFLinker σ Die Ctx A)
    (K : AccelTableKind) (h : K ∈ L.Options.AccelTables) :
    DWARFLinker.addAccelTableKind L K = none := by
  unfold DWARFLinker.addAccelTableKind
  rw [if_pos h]

/-- Successive additions: the resulting list, and when the whole sequence
passes every assertion. -/
theorem DWARFLinker.addAccelTableKinds_spec (Ks : List AccelTableKind) :
    ∀ L : DWARFLinker σ Die Ctx A,
      (∀ L2, DWARFLinker.addAccelTableKinds L Ks = some L2 →
        L2.Options.AccelTables = L.Options.AccelTables ++ Ks) ∧
      (L.Options.AccelTables.Nodup →
        ((DWARFLinker.addAccelTableKinds L Ks).isSome = true ↔
          (L.Options.AccelTables ++ Ks).Nodup)) := by
  induction Ks with
  | nil =>
    intro L
    refine ⟨?_, ?_⟩
    · intro L2 h
      simp only [DWARFLinker.addAccelTableKinds, Option.some.injEq] at h
      subst h
      simp
    · intro hn
      simp [DWARFLinker.addAccelTableKinds, hn]
  | cons K Ks ih =>
    intro L
    by_cases hK : K ∈ L.Options.AccelTables
    · have hnone : DWARFLinker.addAccelTableKinds L (K :: Ks) = none := by
        simp [DWARFLinker.addAccelTableKinds, DWARFLinker.addAccelTableKind_of_mem L K hK]
      refine ⟨?_, ?_⟩
      · intro L2 h
        rw [hnone] at h
        cases h
      · intro _
        rw [hnone]
        constructor
        · intro h
          cases h
        · intro h
          exfalso
          rw [List.nodup_append] at h
          exact h.2.2 hK (List.mem_cons_self K Ks)
    · have hstep : DWARFLinker.addAccelTableKinds L (K :: Ks) =
          DWARFLinker.addAccelTableKinds
            { L with Options := { L.Options with AccelTables := L.Options.AccelTables ++ [K] } } Ks := by
        simp [DWARFLinker.addAccelTableKinds, DWARFLinker.addAccelTableKind_of_not_mem L K hK]
      have ih1 := ih { L with Options := { L.Options with AccelTables := L.Options.AccelTables ++ [K] } }
      refine ⟨?_, ?_⟩
      · intro L2 h
        rw [hstep] at h
        have := ih1.1 L2 h
        simpa using this
      · intro hn
        rw [hstep]
        have hn1 : (L.Options.AccelTables ++ [K]).Nodup := by
          rw [List.nodup_append]
          refine ⟨hn, List.nodup_singleton K, ?_⟩
          intro a ha hb
          rw [List.mem_singleton] at hb
          subst hb
          exact hK ha
        have := ih1.2 hn1
        simpa using this

/-- C3: `reportWarning` hands (message, `File.FileName`, DIE) to the injected
warning handler, once, and `reportError` hands them to the injected error
handler, once; with a null handler the call leaves the client state as it was.
The effect of `reportWarning` does not depend on the error handler, nor that of
`reportError` on the warning handler. With callbacks that record their
invocations, each call adds exactly one record, of its own handler. -/
theorem DWARFLinker.report_invokes_own_handler_once
    (L : DWARFLinker σ Die Ctx A) (R : DWARFLinker (List (HandlerCall Die)) Die Ctx A)
    (Message : String) (File : DWARFFile Ctx A) (DIE : Option Die)
    (Handler : messageHandler σ Die) (w : σ) (Log : List (HandlerCall Die)) :
    DWARFLinker.reportWarning { L with WarningHandler := some Handler } Message File DIE w =
      Handler Message File.FileName DIE w ∧
    DWARFLinker.reportError { L with ErrorHandler := some Handler } Message File DIE w =
      Handler Message File.FileName DIE w ∧
    DWARFLinker.reportWarning { L with WarningHandler := none } Message File DIE w = w ∧
    DWARFLinker.reportError { L with ErrorHandler := none } Message File DIE w = w ∧
    (∀ EH, DWARFLinker.reportWarning { L with ErrorHandler := EH } Message File DIE w =
      DWARFLinker.reportWarning L Message File DIE w) ∧
    (∀ WH, DWARFLinker.reportError { L with WarningHandler := WH } Message File DIE w =
      DWARFLinker.reportError L Message File DIE w) ∧
    DWARFLinker.reportWarning
        { R with ErrorHandler := some (recordingHandler HandlerSlot.Error)
                 WarningHandler := some (recordingHandler HandlerSlot.Warning) }
        Message File DIE Log =
      Log ++ [{ Slot := HandlerSlot.Warning, Message := Message, Context := File.FileName, DIE := DIE }] ∧
    DWARFLinker.reportError
        { R with ErrorHandler := some (recordingHandler HandlerSlot.Error)
                 WarningHandler := some (recordingHandler HandlerSlot.Warning) }
        Message File DIE Log =
      Log ++ [{ Slot := HandlerSlot.Error, Message := Message, Context := File.FileName, DIE := DIE }] :=
  ⟨rfl, rfl, rfl, rfl, fun _ => rfl, fun _ => rfl, rfl, rfl⟩

/-- C4: for a kind `K` not yet in `Options.AccelTables`, `addAccelTableKind K`
succeeds and yields exactly the previous list with `K` appended, so the earlier
kinds stay, in their order, as a prefix; and every duplicate-free combination
of kinds is obtained from a fresh linker by successive calls. -/
theorem DWARFLinker.addAccelTableKind_appends (L : DWARFLinker σ Die Ctx A)
    (K : AccelTableKind) (h : K ∉ L.Options.AccelTables)
    (EH WH : Option (messageHandler σ Die)) (ST : Option (String → String)) :
    (∃ L1, DWARFLinker.addAccelTableKind L K = some L1 ∧
      L1.Options.AccelTables = L.Options.AccelTables ++ [K] ∧
      L.Options.AccelTables <+: L1.Options.AccelTables) ∧
    (∀ Ks : List AccelTableKind, Ks.Nodup →
      ∃ L2, DWARFLinker.addAccelTableKinds
          (DWARFLinker.createLinker EH WH ST : DWARFLinker σ Die Ctx A) Ks = some L2 ∧
        L2.Options.AccelTables = Ks) := by
  refine ⟨⟨_, DWARFLinker.addAccelTableKind_of_not_mem L K h, rfl, List.prefix_append _ _⟩, ?_⟩
  intro Ks hKs
  have hs := DWARFLinker.addAccelTableKinds_spec Ks
    (DWARFLinker.createLinker EH WH ST : DWARFLinker σ Die Ctx A)
  have hsome : (DWARFLinker.addAccelTableKinds
      (DWARFLinker.createLinker EH WH ST : DWARFLinker σ Die Ctx A) Ks).isSome = true :=
    (hs.2 List.nodup_nil).2 (by simpa [DWARFLinker.createLinker, DWARFLinker.ctor] using hKs)
  obtain ⟨L2, hL2⟩ := Option.isSome_iff_exists.1 hsome
  refine ⟨L2, hL2, ?_⟩
  have := hs.1 L2 hL2
  simpa [DWARFLinker.createLinker, DWARFLinker.ctor] using this

/-- Witness for C4: adding `Pub` after `Apple`. -/
theorem DWARFLinker.addAccelTableKind_appends_witness :
    ∃ L1, DWARFLinker.addAccelTableKind (exampleLinkerWith [AccelTableKind.Apple])
        AccelTableKind.Pub = some L1 ∧
      L1.Options.AccelTables =
        (exampleLinkerWith [AccelTableKind.Apple]).Options.AccelTables ++ [AccelTableKind.Pub] ∧
      (exampleLinkerWith [AccelTableKind.Apple]).Options.AccelTables <+: L1.Options.AccelTables :=
  (DWARFLinker.addAccelTableKind_appends (exampleLinkerWith [AccelTableKind.Apple])
    AccelTableKind.Pub (by decide) none none none).1

/-- C5: in every state reached from a fresh linker by calls of
`addAccelTableKind` whose assertions hold, `Options.AccelTables` is the list of
the kinds added, contains no kind twice and has at most three entries, and the
next call fails its assertion exactly for a kind that was added before; a
sequence of calls trips an assertion exactly when it repeats a kind. -/
theorem DWARFLinker.accelTables_nodup_of_reachable
    (EH WH : Option (messageHandler σ Die)) (ST : Option (String → String))
    (Ks : List AccelTableKind) :
    (∀ L : DWARFLinker σ Die Ctx A,
      DWARFLinker.addAccelTableKinds (DWARFLinker.createLinker EH WH ST) Ks = some L →
        L.Options.AccelTables = Ks ∧ L.Options.AccelTables.Nodup ∧
        L.Options.AccelTables.length ≤ 3 ∧
        ∀ K, (DWARFLinker.addAccelTableKind L K = none ↔ K ∈ Ks)) ∧
    (DWARFLinker.addAccelTableKinds
        (DWARFLinker.createLinker EH WH ST : DWARFLinker σ Die Ctx A) Ks = none ↔ ¬ Ks.Nodup) := by
  have hs := DWARFLinker.addAccelTableKinds_spec Ks
    (DWARFLinker.createLinker EH WH ST : DWARFLinker σ Die Ctx A)
  have hiff : (DWARFLinker.addAccelTableKinds
      (DWARFLinker.createLinker EH WH ST : DWARFLinker σ Die Ctx A) Ks).isSome = true ↔ Ks.Nodup := by
    have := hs.2 List.nodup_nil
    simpa [DWARFLinker.createLinker, DWARFLinker.ctor] using this
  refine ⟨?_, ?_⟩
  · intro L hL
    have hT : L.Options.AccelTables = Ks := by
      have := hs.1 L hL
      simpa [DWARFLinker.createLinker, DWARFLinker.ctor] using this
    have hN : Ks.Nodup := hiff.1 (by rw [hL]; rfl)
    refine ⟨hT, hT ▸ hN, ?_, ?_⟩
    · rw [hT]
      have := List.Nodup.length_le_card hN
      simpa using this
    · intro K
      constructor
      · intro hnone
        by_contra hmem
        rw [DWARFLinker.addAccelTableKind_of_not_mem L K (hT ▸ hmem)] at hnone
        cases hnone
      · intro hmem
        exact DWARFLinker.addAccelTableKind_of_mem L K (hT ▸ hmem)
  · rw [← hiff]
    cases DWARFLinker.addAccelTableKinds
      (DWARFLinker.createLinker EH WH ST : DWARFLinker σ Die Ctx A) Ks <;> simp

/-- Witness for C5: after adding `Apple` then `DebugNames` to a fresh linker,
a second `Apple` fails the assertion. -/
theorem DWARFLinker.accelTables_nodup_of_reachable_witness :
    DWARFLinker.addAccelTableKind
      (exampleLinkerWith [AccelTableKind.Apple, AccelTableKind.DebugNames])
      AccelTableKind.Apple = none :=
  (((DWARFLinker.accelTables_nodup_of_reachable none none none
      [AccelTableKind.Apple, AccelTableKind.DebugNames]).1
      (exampleLinkerWith [AccelTableKind.Apple, AccelTableKind.DebugNames]) rfl).2.2.2
      AccelTableKind.Apple).2
    (by decide)

/-- `LinkContext::clear()` has a defined result exactly when the address map of
the file is not null. -/
theorem LinkContext.clear_eq_none_iff [AddressesMap A] (C : LinkContext Ctx A CU) :
    LinkContext.clear C = none ↔ C.File.Addresses = none := by
  unfold LinkContext.clear
  cases C.File.Addresses <;> simp

/-- C6, as amended: for every LinkContext whose file has a non-null address map,
`clear()` returns, and after it the list of compile units (and with it their
per-entry info arrays) is empty and the address map of the file is the result
of its own `clear()`. -/
theorem LinkContext.clear_releases [AddressesMap A] (C : LinkContext Ctx A CU) (Map : A)
    (h : C.File.Addresses = some Map) :
    ∃ C1, LinkContext.clear C = some C1 ∧ C1.CompileUnits = [] ∧
      C1.File.Addresses = some (AddressesMap.clear Map) := by
  unfold LinkContext.clear
  rw [h]
  exact ⟨_, rfl, rfl, rfl⟩

/-- Witness for C6: clearing the context of `a.o`, which holds two units and an
address map with one relocation, leaves no unit and an empty address map. -/
theorem LinkContext.clear_releases_witness :
    ∃ C1, LinkContext.clear exampleContext = some C1 ∧ C1.CompileUnits = [] ∧
      C1.File.Addresses = some (AddressesMap.clear ({ ValidRelocs := [20] } : ExampleAddresses)) :=
  LinkContext.clear_releases exampleContext { ValidRelocs := [20] } rfl

/-- Counterexample to C6 as stated: the freshly constructed context of a file
whose address map is null is a LinkContext on which `clear()` dereferences the
null pointer, so there is no state after the call in which the compile units
are released and the address map is cleared. -/
theorem LinkContext.clear_releases_counterexample :
    exampleNullContext.File.Addresses = none ∧
    LinkContext.clear exampleNullContext = none ∧
    ¬ ∃ C1, LinkContext.clear exampleNullContext = some C1 ∧ C1.CompileUnits = [] :=
  ⟨rfl, rfl, fun ⟨_, h, _⟩ => Option.noConfusion h⟩

/-- C7: a freshly created linker has type uniquing enabled (`NoODR` false),
input verification not requested, index-only update mode off, the
keep-function-for-static policy off, one worker thread and no accelerator-table
kind selected. -/
theorem DWARFLinker.createLinker_defaults
    (EH WH : Option (messageHandler σ Die)) (ST : Option (String → String)) :
    (DWARFLinker.createLinker EH WH ST : DWARFLinker σ Die Ctx A).Options.NoODR = false ∧
    (DWARFLinker.createLinker EH WH ST : DWARFLinker σ Die Ctx A).Options.VerifyInputDWARF = false ∧
    (DWARFLinker.createLinker EH WH ST : DWARFLinker σ Die Ctx A).Options.Update = false ∧
    (DWARFLinker.createLinker EH WH ST : DWARFLinker σ Die Ctx A).Options.KeepFunctionForStatic = false ∧
    (DWARFLinker.createLinker EH WH ST : DWARFLinker σ Die Ctx A).Options.Threads = 1 ∧
    (DWARFLinker.createLinker EH WH ST : DWARFLinker σ Die Ctx A).Options.AccelTables = [] :=
  ⟨rfl, rfl, rfl, rfl, rfl, rfl⟩

end Configuration

section Resolution

variable {σ Ctx A : Type}

/-- The unit found by the range search contains the offset. -/
theorem getUnitForOffset_eq_some (Us : List DWARFUnit) (Offset : Nat) :
    ∀ u, getUnitForOffset Us Offset = some u →
      ∃ U, Us[u]? = some U ∧ U.StartOffset ≤ Offset ∧ Offset < U.NextUnitOffset := by
  induction Us with
  | nil => intro u h; simp [getUnitForOffset] at h
  | cons U Us ih =>
    intro u h
    unfold getUnitForOffset at h
    by_cases hr : U.StartOffset ≤ Offset ∧ Offset < U.NextUnitOffset
    · rw [if_pos hr] at h
      cases h
      exact ⟨U, by simp, hr.1, hr.2⟩
    · rw [if_neg hr] at h
      cases hg : getUnitForOffset Us Offset with
      | none => rw [hg] at h; cases h
      | some v =>
        rw [hg] at h
        cases h
        obtain ⟨V, hV, h1, h2⟩ := ih v hg
        exact ⟨V, by simpa using hV, h1, h2⟩

/-- The range search fails when no unit contains the offset. -/
theorem getUnitForOffset_eq_none (Us : List DWARFUnit) (Offset : Nat)
    (h : ∀ U ∈ Us, ¬ (U.StartOffset ≤ Offset ∧ Offset < U.NextUnitOffset)) :
    getUnitForOffset Us Offset = none := by
  induction Us with
  | nil => rfl
  | cons U Us ih =>
    unfold getUnitForOffset
    rw [if_neg (h U (List.mem_cons_self U Us))]
    rw [ih (fun V hV => h V (List.mem_cons_of_mem U hV))]
    rfl

/-- The entry found by the offset match starts at the offset. -/
theorem getDIEForOffset_eq_some (Es : List Entry) (Offset : Nat) :
    ∀ i, getDIEForOffset Es Offset = some i → ∃ E, Es[i]? = some E ∧ E.Offset = Offset := by
  induction Es with
  | nil => intro i h; simp [getDIEForOffset] at h
  | cons E Es ih =>
    intro i h
    unfold getDIEForOffset at h
    by_cases hr : E.Offset = Offset
    · rw [if_pos hr] at h
      cases h
      exact ⟨E, by simp, hr⟩
    · rw [if_neg hr] at h
      cases hg : getDIEForOffset Es Offset with
      | none => rw [hg] at h; cases h
      | some v =>
        rw [hg] at h
        cases h
        obtain ⟨V, hV, h1⟩ := ih v hg
        exact ⟨V, by simpa using hV, h1⟩

/-- The offset match fails when no entry starts at the offset. -/
theorem getDIEForOffset_eq_none (Es : List Entry) (Offset : Nat)
    (h : ∀ E ∈ Es, E.Offset ≠ Offset) : getDIEForOffset Es Offset = none := by
  induction Es with
  | nil => rfl
  | cons E Es ih =>
    unfold getDIEForOffset
    rw [if_neg (h E (List.mem_cons_self E Es))]
    rw [ih (fun V hV => h V (List.mem_cons_of_mem E hV))]
    rfl

/-- C8: when the referenced offset lies outside every unit, or no entry of any
unit starts at it, `resolveDIEReference` returns the null DIE and reports one
warning for the referring entry through `reportWarning`. It is a total
function, and whenever it returns an entry, that entry starts at the referenced
offset, lies in the unit returned as `RefCU`, whose range contains the offset,
and no warning is reported. -/
theorem DWARFLinker.resolveDIEReference_null_on_failure (L : DWARFLinker σ DWARFDie Ctx A)
    (File : DWARFFile Ctx A) (Units : List CompileUnit) (RefValue : Nat) (DIE : DWARFDie) (w : σ) :
    (((∀ U ∈ Units, ¬ (U.OrigUnit.StartOffset ≤ RefValue ∧ RefValue < U.OrigUnit.NextUnitOffset)) ∨
        (∀ U ∈ Units, ∀ E ∈ U.OrigUnit.Entries, E.Offset ≠ RefValue)) →
      (DWARFLinker.resolveDIEReference L File Units RefValue DIE w).1.1 = none ∧
      (DWARFLinker.resolveDIEReference L File Units RefValue DIE w).2 =
        DWARFLinker.reportWarning L unresolvedReferenceWarning File (some DIE) w) ∧
    (∀ i, (DWARFLinker.resolveDIEReference L File Units RefValue DIE w).1.1 = some i →
      ∃ u U E, (DWARFLinker.resolveDIEReference L File Units RefValue DIE w).1.2 = some u ∧
        Units[u]? = some U ∧ U.OrigUnit.Entries[i]? = some E ∧ E.Offset = RefValue ∧
        U.OrigUnit.StartOffset ≤ RefValue ∧ RefValue < U.OrigUnit.NextUnitOffset ∧
        (DWARFLinker.resolveDIEReference L File Units RefValue DIE w).2 = w) := by
  unfold DWARFLinker.resolveDIEReference
  cases hu : getUnitForOffset (origUnits Units) RefValue with
  | none =>
    refine ⟨fun _ => ⟨rfl, rfl⟩, ?_⟩
    intro i hi
    cases hi
  | some u =>
    obtain ⟨U, hU, hlo, hhi⟩ := getUnitForOffset_eq_some _ _ u hu
    have hU2 := hU
    unfold origUnits at hU2
    rw [List.getElem?_map] at hU2
    cases hC : Units[u]? with
    | none => rw [hC] at hU2; cases hU2
    | some C =>
      rw [hC] at hU2
      simp only [Option.map_some', Option.some.injEq] at hU2
      simp only [hU]
      cases hd : getDIEForOffset U.Entries RefValue with
      | none =>
        refine ⟨fun _ => ⟨rfl, rfl⟩, ?_⟩
        intro i hi
        cases hi
      | some j =>
        refine ⟨?_, ?_⟩
        · intro hfail
          exfalso
          obtain ⟨E, hE, hoff⟩ := getDIEForOffset_eq_some _ _ j hd
          have hCmem : C ∈ Units := List.getElem?_mem hC
          rcases hfail with h1 | h2
          · exact h1 C hCmem (by rw [hU2]; exact ⟨hlo, hhi⟩)
          · exact h2 C hCmem E (by rw [hU2]; exact List.getElem?_mem hE) hoff
        · intro i hi
          simp only [Option.some.injEq] at hi
          subst hi
          obtain ⟨E, hE, hoff⟩ := getDIEForOffset_eq_some _ _ j hd
          exact ⟨u, C, E, rfl, hC, by rw [hU2]; exact hE, hoff, by rw [hU2]; exact hlo,
            by rw [hU2]; exact hhi, rfl⟩

/-- Witness for C8: in the example units the offset 999 lies outside every
unit, and offset 50 lies inside unit 0 but starts no entry; both resolve to the
null DIE and add one warning record for the referring entry. -/
theorem DWARFLinker.resolveDIEReference_null_on_failure_witness :
    (DWARFLinker.resolveDIEReference recordingLinker exampleFile exampleUnits 999 (some 1) []).1.1 =
      none ∧
    (DWARFLinker.resolveDIEReference recordingLinker exampleFile exampleUnits 999 (some 1) []).2 =
      [{ Slot := HandlerSlot.Warning, Message := unresolvedReferenceWarning, Context := "a.o",
         DIE := some (some 1) }] ∧
    (DWARFLinker.resolveDIEReference recordingLinker exampleFile exampleUnits 50 (some 1) []).1.1 =
      none :=
  ⟨((DWARFLinker.resolveDIEReference_null_on_failure recordingLinker exampleFile exampleUnits 999
      (some 1) []).1 (Or.inl (by decide))).1,
   ((DWARFLinker.resolveDIEReference_null_on_failure recordingLinker exampleFile exampleUnits 999
      (some 1) []).1 (Or.inl (by decide))).2,
   ((DWARFLinker.resolveDIEReference_null_on_failure recordingLinker exampleFile exampleUnits 50
      (some 1) []).1 (Or.inr (by decide))).1⟩

end Resolution

section Cloning

variable {σ Ctx A : Type}

/-- The output of a concatenation of unit lists is the concatenation of the outputs. -/
theorem DIECloner.cloneUnits_append (Pre Post : List CompileUnit) :
    DIECloner.cloneUnits (Pre ++ Post) = DIECloner.cloneUnits Pre ++ DIECloner.cloneUnits Post := by
  induction Pre with
  | nil => rfl
  | cons U Us ih =>
    show DIECloner.cloneCompileUnit U ++ DIECloner.cloneUnits (Us ++ Post) = _
    rw [ih, DIECloner.cloneUnits, List.append_assoc]

/-- C9: for a unit in which no entry has Keep set, `cloneDIE` returns null on
the root (and on every entry), the unit contributes no output unit, and the
output of `cloneAllCompileUnits` for a unit list is the same as without the
unit; all three are plain values of total functions, no error is raised. -/
theorem DIECloner.cloneDIE_null_of_no_keep [AddressesMap A] (U : CompileUnit)
    (h : ∀ I ∈ U.Info, I.Keep = false) :
    DIECloner.cloneDIE U U.OrigUnit.Entries.length (some 0) = none ∧
    (∀ fuel D, DIECloner.cloneDIE U fuel D = none) ∧
    DIECloner.cloneCompileUnit U = [] ∧
    (∀ (File : DWARFFile Ctx A) (Pre Post : List CompileUnit),
      DIECloner.cloneAllCompileUnits File (Pre ++ U :: Post) =
        DIECloner.cloneAllCompileUnits File (Pre ++ Post)) := by
  have hclone : ∀ fuel D, DIECloner.cloneDIE U fuel D = none := by
    intro fuel D
    cases fuel with
    | zero => rfl
    | succ n =>
      cases D with
      | none => rfl
      | some Idx =>
        unfold DIECloner.cloneDIE
        cases hE : U.OrigUnit.Entries[Idx]? with
        | none => rfl
        | some E =>
          cases hI : U.Info[Idx]? with
          | none => rfl
          | some I =>
            simp only []
            rw [h I (List.getElem?_mem hI)]
            rfl
  have hunit : DIECloner.cloneCompileUnit U = [] := by
    unfold DIECloner.cloneCompileUnit
    rw [hclone]
    simp
  refine ⟨hclone _ _, hclone, hunit, ?_⟩
  intro File Pre Post
  unfold DIECloner.cloneAllCompileUnits
  rw [DIECloner.cloneUnits_append, DIECloner.cloneUnits_append]
  simp only [DIECloner.cloneUnits, hunit, List.nil_append]

/-- Witness for C9: unit 0 of the example before any entry is marked. -/
theorem DIECloner.cloneDIE_null_of_no_keep_witness :
    DIECloner.cloneDIE exampleUnitA exampleUnitA.OrigUnit.Entries.length (some 0) = none ∧
    DIECloner.cloneCompileUnit exampleUnitA = [] ∧
    DIECloner.cloneAllCompileUnits exampleFile ([] ++ exampleUnitA :: [exampleUnitB]) =
      DIECloner.cloneAllCompileUnits exampleFile ([] ++ [exampleUnitB]) :=
  ⟨(@DIECloner.cloneDIE_null_of_no_keep Unit ExampleAddresses _ exampleUnitA (by decide)).1,
   (@DIECloner.cloneDIE_null_of_no_keep Unit ExampleAddresses _ exampleUnitA (by decide)).2.2.1,
   (@DIECloner.cloneDIE_null_of_no_keep Unit ExampleAddresses _ exampleUnitA (by decide)).2.2.2
     exampleFile [] [exampleUnitB]⟩

end Cloning

section ListFacts

/-- Reading a list after `updateAt`. -/
theorem updateAt_getElem? {α : Type} (f : α → α) (l : List α) :
    ∀ n m, (updateAt f l n)[m]? = if m = n then (l[m]?).map f else l[m]? := by
  induction l with
  | nil => intro n m; simp [updateAt]
  | cons a as ih =>
    intro n m
    cases n with
    | zero =>
      cases m with
      | zero => simp [updateAt]
      | succ m => simp [updateAt]
    | succ n =>
      cases m with
      | zero => simp [updateAt]
      | succ m => simp [updateAt, ih n m]

/-- A projection that the update does not change is the same on the updated list. -/
theorem updateAt_map_eq {α β : Type} (f : α → α) (g : α → β) (hg : ∀ a, g (f a) = g a)
    (l : List α) : ∀ n, (updateAt f l n).map g = l.map g := by
  induction l with
  | nil => intro n; simp [updateAt]
  | cons a as ih =>
    intro n
    cases n with
    | zero => simp [updateAt, hg]
    | succ n => simp [updateAt, ih n]

end ListFacts

section InfoFacts

/-- Updating info records leaves the original units as they are. -/
theorem origUnits_modifyInfo (Units : List CompileUnit) (u i : Nat) (f : EntryInfo → EntryInfo) :
    origUnits (modifyInfo Units u i f) = origUnits Units := by
  unfold origUnits modifyInfo
  exact updateAt_map_eq (fun U => { U with Info := updateAt f U.Info i }) CompileUnit.OrigUnit
    (fun _ => rfl) Units u

/-- Reading an info record after an update. -/
theorem getInfo_modifyInfo (Units : List CompileUnit) (u i : Nat) (f : EntryInfo → EntryInfo)
    (v j : Nat) :
    getInfo (modifyInfo Units u i f) v j =
      if v = u ∧ j = i then (getInfo Units u i).map f else getInfo Units v j := by
  unfold getInfo modifyInfo
  rw [updateAt_getElem?]
  by_cases hv : v = u
  · subst hv
    cases hU : Units[v]? with
    | none => simp
    | some U =>
      simp only [if_true, Option.map_some', true_and]
      rw [updateAt_getElem?]
      by_cases hj : j = i
      · subst hj
        simp
      · simp [hj]
  · simp [hv]

/-- An update that preserves Keep preserves the count of unkept entries. -/
theorem unkeptCount_modifyInfo_of_keep_eq (Units : List CompileUnit) (u i : Nat)
    (f : EntryInfo → EntryInfo) (hf : ∀ I, (f I).Keep = I.Keep) :
    unkeptCount (modifyInfo Units u i f) = unkeptCount Units := by
  unfold unkeptCount modifyInfo
  rw [updateAt_map_eq]
  intro U
  simp only []
  rw [updateAt_map_eq]
  intro I
  rw [hf I]

/-- The Keep bit after an update of the info record of `(u, i)`. -/
theorem isKept_modifyInfo (Units : List CompileUnit) (u i : Nat) (f : EntryInfo → EntryInfo)
    (v j : Nat) :
    isKept (modifyInfo Units u i f) v j =
      if v = u ∧ j = i then
        (match getInfo Units u i with
          | some I => (f I).Keep
          | none => false)
      else isKept Units v j := by
  unfold isKept
  rw [getInfo_modifyInfo]
  by_cases h : v = u ∧ j = i
  · rw [if_pos h, if_pos h]
    cases getInfo Units u i <;> rfl
  · rw [if_neg h, if_neg h]

/-- An update never removes an info record. -/
theorem getInfo_isSome_modifyInfo (Units : List CompileUnit) (u i : Nat)
    (f : EntryInfo → EntryInfo) (v j : Nat) :
    (getInfo (modifyInfo Units u i f) v j).isSome = (getInfo Units v j).isSome := by
  rw [getInfo_modifyInfo]
  by_cases h : v = u ∧ j = i
  · rw [if_pos h, h.1, h.2]
    cases getInfo Units u i <;> rfl
  · rw [if_neg h]

end InfoFacts

section WeightFacts

variable {σ Ctx A : Type}

end WeightFacts

section StepFacts

variable {σ Ctx A : Type}

/-- An update of an info record that preserves Keep gives `SameKeep`. -/
theorem SameKeep.modifyInfo (Units : List CompileUnit) (u i : Nat) (f : EntryInfo → EntryInfo)
    (hf : ∀ I, (f I).Keep = I.Keep) : SameKeep Units (modifyInfo Units u i f) := by
  refine ⟨origUnits_modifyInfo Units u i f, unkeptCount_modifyInfo_of_keep_eq Units u i f hf, ?_,
    getInfo_isSome_modifyInfo Units u i f⟩
  intro v j
  rw [isKept_modifyInfo]
  by_cases h : v = u ∧ j = i
  · rw [if_pos h, h.1, h.2]
    unfold isKept
    cases getInfo Units u i with
    | none => rfl
    | some I => exact hf I
  · rw [if_neg h]

end StepFacts

section LoopFacts

variable {σ Ctx A : Type}

end LoopFacts

section WorklistTypes

/-- C12: `WorklistItemType` has exactly seven values, the seven enumerators,
which are pairwise distinct, and the correspondence to the kinds of the design
document (LookForDIEsToKeep to decide-keep, LookForChildDIEsToKeep to
propagate-to-children, LookForRefDIEsToKeep to propagate-to-references,
LookForParentDIEsToKeep to propagate-to-ancestors, the two incompleteness
updates and MarkODRCanonicalDie to mark-ODR-canonical) is one-to-one and onto. -/
theorem WorklistItemType.seven_distinct_kinds :
    Fintype.card WorklistItemType = 7 ∧
    [WorklistItemType.LookForDIEsToKeep, WorklistItemType.LookForChildDIEsToKeep,
      WorklistItemType.LookForRefDIEsToKeep, WorklistItemType.LookForParentDIEsToKeep,
      WorklistItemType.UpdateChildIncompleteness, WorklistItemType.UpdateRefIncompleteness,
      WorklistItemType.MarkODRCanonicalDie].Nodup ∧
    (∀ T : WorklistItemType,
      T ∈ [WorklistItemType.LookForDIEsToKeep, WorklistItemType.LookForChildDIEsToKeep,
        WorklistItemType.LookForRefDIEsToKeep, WorklistItemType.LookForParentDIEsToKeep,
        WorklistItemType.UpdateChildIncompleteness, WorklistItemType.UpdateRefIncompleteness,
        WorklistItemType.MarkODRCanonicalDie]) ∧
    Function.Bijective WorklistItemType.specKind ∧
    Fintype.card SpecWorkKind = 7 ∧
    WorklistItemType.specKind WorklistItemType.LookForDIEsToKeep = SpecWorkKind.decideKeep ∧
    WorklistItemType.specKind WorklistItemType.LookForChildDIEsToKeep =
      SpecWorkKind.propagateToChildren ∧
    WorklistItemType.specKind WorklistItemType.LookForRefDIEsToKeep =
      SpecWorkKind.propagateToReferences ∧
    WorklistItemType.specKind WorklistItemType.LookForParentDIEsToKeep =
      SpecWorkKind.propagateToAncestors ∧
    WorklistItemType.specKind WorklistItemType.UpdateChildIncompleteness =
      SpecWorkKind.updateIncompletenessFromChildren ∧
    WorklistItemType.specKind WorklistItemType.UpdateRefIncompleteness =
      SpecWorkKind.updateIncompletenessFromReferences ∧
    WorklistItemType.specKind WorklistItemType.MarkODRCanonicalDie =
      SpecWorkKind.markODRCanonical := by
  refine ⟨rfl, by decide, ?_, ⟨?_, ?_⟩, rfl, rfl, rfl, rfl, rfl, rfl, rfl, rfl⟩
  · intro T
    cases T <;> decide
  · intro T1 T2 h
    cases T1 <;> cases T2 <;> first | rfl | cases h
  · intro K
    cases K
    · exact ⟨WorklistItemType.LookForDIEsToKeep, rfl⟩
    · exact ⟨WorklistItemType.LookForChildDIEsToKeep, rfl⟩
    · exact ⟨WorklistItemType.LookForRefDIEsToKeep, rfl⟩
    · exact ⟨WorklistItemType.LookForParentDIEsToKeep, rfl⟩
    · exact ⟨WorklistItemType.UpdateChildIncompleteness, rfl⟩
    · exact ⟨WorklistItemType.UpdateRefIncompleteness, rfl⟩
    · exact ⟨WorklistItemType.MarkODRCanonicalDie, rfl⟩

/-- C13: a `WorklistItem` constructed from (Die, CU, Flags) without an explicit
kind has kind LookForDIEsToKeep, exactly that DIE, unit and flags, and
AncestorIdx 0; one constructed from (AncestorIdx, CU, Flags) has kind
LookForParentDIEsToKeep, exactly that index, unit and flags, and a
default-constructed DIE, so the ancestor is identified by its index alone. -/
theorem WorklistItem.constructor_fields {Die CURef InfoRef : Type} [Inhabited Die]
    (D : Die) (CU : CURef) (Flags AncestorIdx : Nat) :
    (WorklistItem.ofDieFlags D CU Flags : WorklistItem Die CURef InfoRef).ItemType =
      WorklistItemType.LookForDIEsToKeep ∧
    (WorklistItem.ofDieFlags D CU Flags : WorklistItem Die CURef InfoRef).Flags = Flags ∧
    (WorklistItem.ofDieFlags D CU Flags : WorklistItem Die CURef InfoRef).Payload =
      WorklistPayload.AncestorIdx 0 ∧
    (WorklistItem.ofDieFlags D CU Flags : WorklistItem Die CURef InfoRef).Die = D ∧
    (WorklistItem.ofDieFlags D CU Flags : WorklistItem Die CURef InfoRef).CU = CU ∧
    (WorklistItem.ofAncestor AncestorIdx CU Flags : WorklistItem Die CURef InfoRef).ItemType =
      WorklistItemType.LookForParentDIEsToKeep ∧
    (WorklistItem.ofAncestor AncestorIdx CU Flags : WorklistItem Die CURef InfoRef).Payload =
      WorklistPayload.AncestorIdx AncestorIdx ∧
    (WorklistItem.ofAncestor AncestorIdx CU Flags : WorklistItem Die CURef InfoRef).Flags = Flags ∧
    (WorklistItem.ofAncestor AncestorIdx CU Flags : WorklistItem Die CURef InfoRef).CU = CU ∧
    (WorklistItem.ofAncestor AncestorIdx CU Flags : WorklistItem Die CURef InfoRef).Die = default :=
  ⟨rfl, rfl, rfl, rfl, rfl, rfl, rfl, rfl, rfl, rfl⟩

/-- Reading a flag off the mask of a set of flags tells whether it is a member. -/
theorem hasFlag_flagsMask : ∀ (S : Finset TraversalFlags) (F : TraversalFlags),
    hasFlag (flagsMask S) F.value = decide (F ∈ S) := by
  decide

/-- Every mask of a set of flags is below 64. -/
theorem flagsMask_lt : ∀ S : Finset TraversalFlags, flagsMask S < 64 := by
  decide

/-- Every number below 64 is the mask of a set of flags. -/
theorem flagsMask_surjective : ∀ n, n < 64 → ∃ S : Finset TraversalFlags, flagsMask S = n := by
  decide

/-- C14: the six traversal flags have the values 1, 2, 4, 8, 16 and 32, which
are pairwise distinct and each a single bit; the bitwise-OR masks of two sets of
flags are equal exactly when the sets are equal; every mask lies in 0..63 and
every number in 0..63 is a mask, so there are exactly 64 flag combinations. -/
theorem TraversalFlags.single_bit_masks :
    TF_Keep = 1 ∧ TF_InFunctionScope = 2 ∧ TF_DependencyWalk = 4 ∧ TF_ParentWalk = 8 ∧
    TF_ODR = 16 ∧ TF_SkipPC = 32 ∧
    [TF_Keep, TF_InFunctionScope, TF_DependencyWalk, TF_ParentWalk, TF_ODR, TF_SkipPC].Nodup ∧
    (∀ F : TraversalFlags, ∃ k, k < 6 ∧ F.value = 2 ^ k) ∧
    Function.Injective TraversalFlags.value ∧
    (∀ S T : Finset TraversalFlags, flagsMask S = flagsMask T ↔ S = T) ∧
    (∀ S : Finset TraversalFlags, flagsMask S < 64) ∧
    (∀ n, n < 64 → ∃ S : Finset TraversalFlags, flagsMask S = n) ∧
    Fintype.card (Finset TraversalFlags) = 64 := by
  refine ⟨rfl, rfl, rfl, rfl, rfl, rfl, by decide, ?_, ?_, ?_, flagsMask_lt,
    flagsMask_surjective, ?_⟩
  · intro F
    cases F
    · exact ⟨0, by decide, rfl⟩
    · exact ⟨1, by decide, rfl⟩
    · exact ⟨2, by decide, rfl⟩
    · exact ⟨3, by decide, rfl⟩
    · exact ⟨4, by decide, rfl⟩
    · exact ⟨5, by decide, rfl⟩
  · intro F G h
    cases F <;> cases G <;> first | rfl | exact absurd h (by decide)
  · intro S T
    constructor
    · intro h
      ext F
      have hS := hasFlag_flagsMask S F
      have hT := hasFlag_flagsMask T F
      rw [h, hT] at hS
      simpa using hS.symm
    · intro h
      rw [h]
  · rw [Fintype.card_finset]
    rfl

end WorklistTypes

section Setters

variable {σ Die Ctx A CU : Type}

/-- C15: each of `setVerbosity`, `setStatistics`, `setVerifyInputDWARF`,
`setNoODR`, `setUpdateIndexTablesOnly`, `setKeepFunctionForStatic`,
`setNumThreads` and `setPrependPath` stores its argument in its own option
field; putting the old value of that field back gives the options before the
call, so no other option field changed, in particular not the target DWARF
version and the accelerator-table list; and nothing outside the options
changed. -/
theorem DWARFLinker.setters_store_and_frame (L : DWARFLinker σ Die Ctx A) (b : Bool) (n : Nat)
    (p : String) :
    ((DWARFLinker.setVerbosity L b).Options.Verbose = b ∧
      { (DWARFLinker.setVerbosity L b).Options with Verbose := L.Options.Verbose } = L.Options ∧
      { DWARFLinker.setVerbosity L b with Options := L.Options } = L ∧
      (DWARFLinker.setVerbosity L b).Options.TargetDWARFVersion = L.Options.TargetDWARFVersion ∧
      (DWARFLinker.setVerbosity L b).Options.AccelTables = L.Options.AccelTables) ∧
    ((DWARFLinker.setStatistics L b).Options.Statistics = b ∧
      { (DWARFLinker.setStatistics L b).Options with Statistics := L.Options.Statistics } = L.Options ∧
      { DWARFLinker.setStatistics L b with Options := L.Options } = L ∧
      (DWARFLinker.setStatistics L b).Options.TargetDWARFVersion = L.Options.TargetDWARFVersion ∧
      (DWARFLinker.setStatistics L b).Options.AccelTables = L.Options.AccelTables) ∧
    ((DWARFLinker.setVerifyInputDWARF L b).Options.VerifyInputDWARF = b ∧
      { (DWARFLinker.setVerifyInputDWARF L b).Options with VerifyInputDWARF := L.Options.VerifyInputDWARF } = L.Options ∧
      { DWARFLinker.setVerifyInputDWARF L b with Options := L.Options } = L ∧
      (DWARFLinker.setVerifyInputDWARF L b).Options.TargetDWARFVersion = L.Options.TargetDWARFVersion ∧
      (DWARFLinker.setVerifyInputDWARF L b).Options.AccelTables = L.Options.AccelTables) ∧
    ((DWARFLinker.setNoODR L b).Options.NoODR = b ∧
      { (DWARFLinker.setNoODR L b).Options with NoODR := L.Options.NoODR } = L.Options ∧
      { DWARFLinker.setNoODR L b with Options := L.Options } = L ∧
      (DWARFLinker.setNoODR L b).Options.TargetDWARFVersion = L.Options.TargetDWARFVersion ∧
      (DWARFLinker.setNoODR L b).Options.AccelTables = L.Options.AccelTables) ∧
    ((DWARFLinker.setUpdateIndexTablesOnly L b).Options.Update = b ∧
      { (DWARFLinker.setUpdateIndexTablesOnly L b).Options with Update := L.Options.Update } = L.Options ∧
      { DWARFLinker.setUpdateIndexTablesOnly L b with Options := L.Options } = L ∧
      (DWARFLinker.setUpdateIndexTablesOnly L b).Options.TargetDWARFVersion = L.Options.TargetDWARFVersion ∧
      (DWARFLinker.setUpdateIndexTablesOnly L b).Options.AccelTables = L.Options.AccelTables) ∧
    ((DWARFLinker.setKeepFunctionForStatic L b).Options.KeepFunctionForStatic = b ∧
      { (DWARFLinker.setKeepFunctionForStatic L b).Options with KeepFunctionForStatic := L.Options.KeepFunctionForStatic } = L.Options ∧
      { DWARFLinker.setKeepFunctionForStatic L b with Options := L.Options } = L ∧
      (DWARFLinker.setKeepFunctionForStatic L b).Options.TargetDWARFVersion = L.Options.TargetDWARFVersion ∧
      (DWARFLinker.setKeepFunctionForStatic L b).Options.AccelTables = L.Options.AccelTables) ∧
    ((DWARFLinker.setNumThreads L n).Options.Threads = n ∧
      { (DWARFLinker.setNumThreads L n).Options with Threads := L.Options.Threads } = L.Options ∧
      { DWARFLinker.setNumThreads L n with Options := L.Options } = L ∧
      (DWARFLinker.setNumThreads L n).Options.TargetDWARFVersion = L.Options.TargetDWARFVersion ∧
      (DWARFLinker.setNumThreads L n).Options.AccelTables = L.Options.AccelTables) ∧
    ((DWARFLinker.setPrependPath L p).Options.PrependPath = p ∧
      { (DWARFLinker.setPrependPath L p).Options with PrependPath := L.Options.PrependPath } = L.Options ∧
      { DWARFLinker.setPrependPath L p with Options := L.Options } = L ∧
      (DWARFLinker.setPrependPath L p).Options.TargetDWARFVersion = L.Options.TargetDWARFVersion ∧
      (DWARFLinker.setPrependPath L p).Options.AccelTables = L.Options.AccelTables) :=
  ⟨⟨rfl, rfl, rfl, rfl, rfl⟩, ⟨rfl, rfl, rfl, rfl, rfl⟩, ⟨rfl, rfl, rfl, rfl, rfl⟩, ⟨rfl, rfl, rfl, rfl, rfl⟩,
   ⟨rfl, rfl, rfl, rfl, rfl⟩, ⟨rfl, rfl, rfl, rfl, rfl⟩, ⟨rfl, rfl, rfl, rfl, rfl⟩,
   ⟨rfl, rfl, rfl, rfl, rfl⟩⟩

/-- C16: `setAllowNonDeterministicOutput` is a no-op: for both argument values
and every prior state the linker state after the call is the state before it,
so every function of the linker state, the output of a later `link()` included,
has the same value after the call as before it. -/
theorem DWARFLinker.setAllowNonDeterministicOutput_noop (L : DWARFLinker σ Die Ctx A) :
    DWARFLinker.setAllowNonDeterministicOutput L true = L ∧
    DWARFLinker.setAllowNonDeterministicOutput L false = L ∧
    (∀ b, DWARFLinker.setAllowNonDeterministicOutput L b = L) ∧
    (∀ b, (DWARFLinker.setAllowNonDeterministicOutput L b).Options = L.Options) ∧
    (∀ (Out : Type) (link : DWARFLinker σ Die Ctx A → Out) (b : Bool),
      link (DWARFLinker.setAllowNonDeterministicOutput L b) = link L) :=
  ⟨rfl, rfl, fun _ => rfl, fun _ => rfl, fun _ _ _ => rfl⟩

/-- C18, as amended: on a context whose file has a non-null address map,
`LinkContext::clear()` returns and leaves the Skip flag, the list of module
units and, but for its address map, the referenced file as they were: restoring
the compile-unit list and the address map gives the context before the call. A
newly constructed context, for any file, refers to the given file, has Skip
false and has no compile units and no module units. -/
theorem LinkContext.clear_frame [AddressesMap A] (C : LinkContext Ctx A CU)
    (File : DWARFFile Ctx A) :
    (∀ Map, C.File.Addresses = some Map →
      ∃ C1, LinkContext.clear C = some C1 ∧
        C1.Skip = C.Skip ∧
        C1.ModuleUnits = C.ModuleUnits ∧
        C1.File.FileName = C.File.FileName ∧
        C1.File.Dwarf = C.File.Dwarf ∧
        C1.File.Warnings = C.File.Warnings ∧
        { C1 with
          CompileUnits := C.CompileUnits
          File := { C1.File with Addresses := C.File.Addresses } } = C) ∧
    (LinkContext.mk_ctor File : LinkContext Ctx A CU).Skip = false ∧
    (LinkContext.mk_ctor File : LinkContext Ctx A CU).CompileUnits = [] ∧
    (LinkContext.mk_ctor File : LinkContext Ctx A CU).ModuleUnits = [] ∧
    (LinkContext.mk_ctor File : LinkContext Ctx A CU).File = File := by
  refine ⟨?_, rfl, rfl, rfl, rfl⟩
  intro Map h
  unfold LinkContext.clear
  rw [h]
  refine ⟨_, rfl, rfl, rfl, rfl, rfl, rfl, ?_⟩
  simp only [← h]

/-- Witness for C18: clearing the context of `a.o` keeps its Skip flag, module
units, file name, DWARF context and warnings. -/
theorem LinkContext.clear_frame_witness :
    ∃ C1, LinkContext.clear exampleContext = some C1 ∧
      C1.Skip = exampleContext.Skip ∧
      C1.ModuleUnits = exampleContext.ModuleUnits ∧
      C1.File.FileName = exampleContext.File.FileName ∧
      C1.File.Dwarf = exampleContext.File.Dwarf ∧
      C1.File.Warnings = exampleContext.File.Warnings ∧
      { C1 with
        CompileUnits := exampleContext.CompileUnits
        File := { C1.File with Addresses := exampleContext.File.Addresses } } = exampleContext :=
  (LinkContext.clear_frame exampleContext exampleFile).1 { ValidRelocs := [20] } rfl

/-- Counterexample to C18 as stated: on the skipped context of a file whose
address map is null, `clear()` dereferences the null pointer, so there is no
state after the call in which the Skip flag, the file and the module units are
those before it. -/
theorem LinkContext.clear_frame_counterexample :
    exampleSkippedNullContext.File.Addresses = none ∧
    LinkContext.clear exampleSkippedNullContext = none ∧
    ¬ ∃ C1, LinkContext.clear exampleSkippedNullContext = some C1 ∧
      C1.Skip = exampleSkippedNullContext.Skip ∧
      C1.ModuleUnits = exampleSkippedNullContext.ModuleUnits :=
  ⟨rfl, rfl, fun ⟨_, h, _⟩ => Option.noConfusion h⟩

/-- The two outcomes of `setTargetDWARFVersion`: a version in 1..5 is stored
with success, any other version is rejected and the state stays. -/
theorem DWARFLinker.setTargetDWARFVersion_cases (L : DWARFLinker σ Die Ctx A) (v : Nat) :
    (1 ≤ v ∧ v ≤ 5 ∧ (DWARFLinker.setTargetDWARFVersion L v).1.isError = false ∧
      (DWARFLinker.setTargetDWARFVersion L v).2.Options.TargetDWARFVersion = v ∧
      (DWARFLinker.setTargetDWARFVersion L v).2.StringsTranslator = L.StringsTranslator) ∨
    ((v < 1 ∨ v > 5) ∧ (DWARFLinker.setTargetDWARFVersion L v).1.isError = true ∧
      (DWARFLinker.setTargetDWARFVersion L v).2 = L) := by
  unfold DWARFLinker.setTargetDWARFVersion
  by_cases h : v < 1 ∨ v > 5
  · rw [if_pos h]
    exact Or.inr ⟨h, rfl, rfl⟩
  · rw [if_neg h]
    exact Or.inl ⟨by omega, by omega, rfl, rfl, rfl⟩

/-- The effect of one setter call on the translator and the target version:
the translator stays; the version stays and no error value is returned, unless
the call is `setTargetDWARFVersion`, which returns one. -/
theorem DWARFLinker.applySetter_effect (L L1 : DWARFLinker σ Die Ctx A)
    (Call : SetterCall σ Ctx A) (Errs : List Error)
    (h : DWARFLinker.applySetter L Call = some (L1, Errs)) :
    L1.StringsTranslator = L.StringsTranslator ∧
    ((Errs = [] ∧ L1.Options.TargetDWARFVersion = L.Options.TargetDWARFVersion) ∨
      (∃ v, Errs = [(DWARFLinker.setTargetDWARFVersion L v).1] ∧
        L1 = (DWARFLinker.setTargetDWARFVersion L v).2)) := by
  cases Call with
  | addAccelTableKind K =>
    simp only [DWARFLinker.applySetter] at h
    by_cases hK : K ∈ L.Options.AccelTables
    · rw [DWARFLinker.addAccelTableKind_of_mem L K hK] at h
      cases h
    · rw [DWARFLinker.addAccelTableKind_of_not_mem L K hK] at h
      simp only [Option.map_some', Option.some.injEq, Prod.mk.injEq] at h
      obtain ⟨h1, h2⟩ := h
      subst h1
      subst h2
      exact ⟨rfl, Or.inl ⟨rfl, rfl⟩⟩
  | setTargetDWARFVersion v =>
    simp only [DWARFLinker.applySetter, Option.some.injEq, Prod.mk.injEq] at h
    obtain ⟨h1, h2⟩ := h
    subst h1
    subst h2
    refine ⟨?_, Or.inr ⟨v, rfl, rfl⟩⟩
    rcases DWARFLinker.setTargetDWARFVersion_cases L v with hc | hc
    · exact hc.2.2.2.2
    · rw [hc.2.2]
  | _ =>
    simp only [DWARFLinker.applySetter, Option.some.injEq, Prod.mk.injEq] at h
    obtain ⟨h1, h2⟩ := h
    subst h1
    subst h2
    exact ⟨rfl, Or.inl ⟨rfl, rfl⟩⟩

/-- The effect of a sequence of setter calls on the translator and the target
version, from a state whose version is 0 or within 1..5. -/
theorem DWARFLinker.applySetters_effect (Calls : List (SetterCall σ Ctx A)) :
    ∀ (L L2 : DWARFLinker σ Die Ctx A) (Errs : List Error),
      DWARFLinker.applySetters L Calls = some (L2, Errs) →
      (L.Options.TargetDWARFVersion = 0 ∨
        (1 ≤ L.Options.TargetDWARFVersion ∧ L.Options.TargetDWARFVersion ≤ 5)) →
      L2.StringsTranslator = L.StringsTranslator ∧
      (L2.Options.TargetDWARFVersion = 0 ∨
        (1 ≤ L2.Options.TargetDWARFVersion ∧ L2.Options.TargetDWARFVersion ≤ 5)) ∧
      (L2.Options.TargetDWARFVersion = 0 ↔
        (L.Options.TargetDWARFVersion = 0 ∧ ∀ e ∈ Errs, e.isError = true)) := by
  induction Calls with
  | nil =>
    intro L L2 Errs h hv
    simp only [DWARFLinker.applySetters, Option.some.injEq, Prod.mk.injEq] at h
    obtain ⟨h1, h2⟩ := h
    subst h1
    subst h2
    exact ⟨rfl, hv, by simp⟩
  | cons Call Calls ih =>
    intro L L2 Errs h hv
    unfold DWARFLinker.applySetters at h
    cases h1 : DWARFLinker.applySetter L Call with
    | none => rw [h1] at h; cases h
    | some r1 =>
      obtain ⟨L1, Errs1⟩ := r1
      rw [h1] at h
      simp only [] at h
      cases h2 : DWARFLinker.applySetters L1 Calls with
      | none => rw [h2] at h; cases h
      | some r2 =>
        obtain ⟨L3, Errs2⟩ := r2
        rw [h2] at h
        simp only [Option.some.injEq, Prod.mk.injEq] at h
        obtain ⟨h3, h4⟩ := h
        subst h3
        subst h4
        obtain ⟨ht1, hstep⟩ := DWARFLinker.applySetter_effect L L1 Call Errs1 h1
        have hv1 : L1.Options.TargetDWARFVersion = 0 ∨
            (1 ≤ L1.Options.TargetDWARFVersion ∧ L1.Options.TargetDWARFVersion ≤ 5) := by
          rcases hstep with ⟨_, hsame⟩ | ⟨v, _, hL1⟩
          · rw [hsame]
            exact hv
          · rcases DWARFLinker.setTargetDWARFVersion_cases L v with hc | hc
            · rw [hL1, hc.2.2.2.1]
              exact Or.inr ⟨hc.1, hc.2.1⟩
            · rw [hL1, hc.2.2]
              exact hv
        obtain ⟨ht2, hr2, hz2⟩ := ih L1 L3 Errs2 h2 hv1
        refine ⟨ht2.trans ht1, hr2, ?_⟩
        rw [hz2]
        rcases hstep with ⟨hE, hsame⟩ | ⟨v, hE, hL1⟩
        · rw [hE, hsame]
          simp
        · rcases DWARFLinker.setTargetDWARFVersion_cases L v with hc | hc
          · rw [hL1, hc.2.2.2.1, hE]
            constructor
            · intro hz
              omega
            · intro hz
              have := hz.2 _ (List.mem_append_left _ (List.mem_singleton_self _))
              rw [hc.2.2.1] at this
              cases this
          · rw [hL1, hc.2.2, hE]
            constructor
            · intro hz
              refine ⟨hz.1, ?_⟩
              intro e he
              rcases List.mem_append.1 he with h5 | h5
              · rw [List.mem_singleton] at h5
                rw [h5]
                exact hc.2.1
              · exact hz.2 e h5
            · intro hz
              exact ⟨hz.1, fun e he => hz.2 e (List.mem_append_right _ he)⟩

/-- No sequence of setter calls changes the translator. -/
theorem DWARFLinker.applySetters_translator (Calls : List (SetterCall σ Ctx A)) :
    ∀ (L L2 : DWARFLinker σ Die Ctx A) (Errs : List Error),
      DWARFLinker.applySetters L Calls = some (L2, Errs) →
      L2.StringsTranslator = L.StringsTranslator := by
  induction Calls with
  | nil =>
    intro L L2 Errs h
    simp only [DWARFLinker.applySetters, Option.some.injEq, Prod.mk.injEq] at h
    rw [← h.1]
  | cons Call Calls ih =>
    intro L L2 Errs h
    unfold DWARFLinker.applySetters at h
    cases h1 : DWARFLinker.applySetter L Call with
    | none => rw [h1] at h; cases h
    | some r1 =>
      obtain ⟨L1, Errs1⟩ := r1
      rw [h1] at h
      simp only [] at h
      cases h2 : DWARFLinker.applySetters L1 Calls with
      | none => rw [h2] at h; cases h
      | some r2 =>
        obtain ⟨L3, Errs2⟩ := r2
        rw [h2] at h
        simp only [Option.some.injEq, Prod.mk.injEq] at h
        rw [← h.1]
        exact (ih L1 L3 Errs2 h2).trans (DWARFLinker.applySetter_effect L L1 Call Errs1 h1).1

/-- C17: in every linker state reached from a freshly created linker by a
sequence of public setter calls, `Options.TargetDWARFVersion` is 0 or within
1..5, and it is 0 exactly when every `setTargetDWARFVersion` call of the
sequence returned an error, that is, when none has succeeded; the initial value
is 0, and 0 is itself a version that `setTargetDWARFVersion` rejects. -/
theorem DWARFLinker.targetDWARFVersion_invariant
    (EH WH : Option (messageHandler σ Die)) (ST : Option (String → String))
    (Calls : List (SetterCall σ Ctx A)) :
    (∀ (L : DWARFLinker σ Die Ctx A) (Errs : List Error),
      DWARFLinker.applySetters (DWARFLinker.createLinker EH WH ST) Calls = some (L, Errs) →
        (L.Options.TargetDWARFVersion = 0 ∨
          (1 ≤ L.Options.TargetDWARFVersion ∧ L.Options.TargetDWARFVersion ≤ 5)) ∧
        (L.Options.TargetDWARFVersion = 0 ↔ ∀ e ∈ Errs, e.isError = true)) ∧
    (DWARFLinker.createLinker EH WH ST : DWARFLinker σ Die Ctx A).Options.TargetDWARFVersion = 0 ∧
    (∀ L : DWARFLinker σ Die Ctx A,
      (DWARFLinker.setTargetDWARFVersion L
        (DWARFLinker.createLinker EH WH ST : DWARFLinker σ Die Ctx A).Options.TargetDWARFVersion).1.isError =
        true) := by
  refine ⟨?_, rfl, fun _ => rfl⟩
  intro L Errs h
  obtain ⟨_, hr, hz⟩ := DWARFLinker.applySetters_effect Calls _ L Errs h (Or.inl rfl)
  refine ⟨hr, ?_⟩
  rw [hz]
  constructor
  · intro hh
    exact hh.2
  · intro hh
    exact ⟨rfl, hh⟩

/-- Witness for C17: after `setNoODR`, a rejected version 9, an accepted
version 4 and `setNumThreads`, the target version is 4, within 1..5. -/
theorem DWARFLinker.targetDWARFVersion_invariant_witness :
    (DWARFLinker.setNumThreads (DWARFLinker.setTargetDWARFVersion (DWARFLinker.setTargetDWARFVersion
      (DWARFLinker.setNoODR exampleLinker true) 9).2 4).2 8).Options.TargetDWARFVersion = 0 ∨
    (1 ≤ (DWARFLinker.setNumThreads (DWARFLinker.setTargetDWARFVersion
        (DWARFLinker.setTargetDWARFVersion (DWARFLinker.setNoODR exampleLinker true) 9).2 4).2
        8).Options.TargetDWARFVersion ∧
      (DWARFLinker.setNumThreads (DWARFLinker.setTargetDWARFVersion
        (DWARFLinker.setTargetDWARFVersion (DWARFLinker.setNoODR exampleLinker true) 9).2 4).2
        8).Options.TargetDWARFVersion ≤ 5) :=
  ((DWARFLinker.targetDWARFVersion_invariant none none none
    [SetterCall.setNoODR true, SetterCall.setTargetDWARFVersion 9,
      SetterCall.setTargetDWARFVersion 4, SetterCall.setNumThreads 8]).1
    (DWARFLinker.setNumThreads (DWARFLinker.setTargetDWARFVersion (DWARFLinker.setTargetDWARFVersion
      (DWARFLinker.setNoODR exampleLinker true) 9).2 4).2 8)
    [(DWARFLinker.setTargetDWARFVersion (DWARFLinker.setNoODR exampleLinker true) 9).1,
     (DWARFLinker.setTargetDWARFVersion (DWARFLinker.setTargetDWARFVersion
      (DWARFLinker.setNoODR exampleLinker true) 9).2 4).1] rfl).1

/-- C19: `needToTranslateStrings()` returns true exactly when a non-null
`StringsTranslator` was supplied to the constructor; a linker made by
`createLinker` with the translator argument omitted returns false; and the
answer is the same after every sequence of public setter calls. -/
theorem DWARFLinker.needToTranslateStrings_iff
    (EH WH : Option (messageHandler σ Die)) (ST : Option (String → String))
    (Calls : List (SetterCall σ Ctx A)) :
    (DWARFLinker.needToTranslateStrings
        (DWARFLinker.createLinker EH WH ST : DWARFLinker σ Die Ctx A) = true ↔
      ∃ Translator, ST = some Translator) ∧
    DWARFLinker.needToTranslateStrings
      (DWARFLinker.ctor EH WH ST : DWARFLinker σ Die Ctx A) = ST.isSome ∧
    DWARFLinker.needToTranslateStrings
      (DWARFLinker.createLinkerDefault EH WH : DWARFLinker σ Die Ctx A) = false ∧
    (∀ (L0 L : DWARFLinker σ Die Ctx A) (Errs : List Error),
      DWARFLinker.applySetters L0 Calls = some (L, Errs) →
        DWARFLinker.needToTranslateStrings L = DWARFLinker.needToTranslateStrings L0) ∧
    (∀ (L : DWARFLinker σ Die Ctx A) (Errs : List Error),
      DWARFLinker.applySetters (DWARFLinker.createLinker EH WH ST) Calls = some (L, Errs) →
        DWARFLinker.needToTranslateStrings L = ST.isSome) := by
  refine ⟨?_, rfl, rfl, ?_, ?_⟩
  · cases ST with
    | none => exact ⟨fun h => (Bool.false_ne_true h).elim, fun ⟨_, h⟩ => Option.noConfusion h⟩
    | some f => exact ⟨fun _ => ⟨f, rfl⟩, fun _ => rfl⟩
  · intro L0 L Errs h
    unfold DWARFLinker.needToTranslateStrings
    rw [DWARFLinker.applySetters_translator Calls L0 L Errs h]
  · intro L Errs h
    unfold DWARFLinker.needToTranslateStrings
    rw [DWARFLinker.applySetters_translator Calls _ L Errs h]
    rfl

/-- Witness for C19: a linker created without translator still answers false
after `setNoODR`, `addAccelTableKind` and an accepted `setTargetDWARFVersion`. -/
theorem DWARFLinker.needToTranslateStrings_iff_witness :
    DWARFLinker.needToTranslateStrings
      (DWARFLinker.setTargetDWARFVersion
        { DWARFLinker.setNoODR exampleLinker true with
          Options := { (DWARFLinker.setNoODR exampleLinker true).Options with
            AccelTables := [AccelTableKind.Pub] } } 5).2 = false :=
  (DWARFLinker.needToTranslateStrings_iff none none none
    [SetterCall.setNoODR true, SetterCall.addAccelTableKind AccelTableKind.Pub,
      SetterCall.setTargetDWARFVersion 5]).2.2.2.2
    (DWARFLinker.setTargetDWARFVersion
      { DWARFLinker.setNoODR exampleLinker true with
        Options := { (DWARFLinker.setNoODR exampleLinker true).Options with
          AccelTables := [AccelTableKind.Pub] } } 5).2
    [Error.success] rfl

end Setters

end llvm

